import Mathlib

set_option maxHeartbeats 1000000

/-!
Shallow embedding of the 86Box hard-disk timing and cache engine
(src/disk/hdd.c): the zone geometry builder (`hdd_preset_apply`,
`hdd_zones_init`), the seek-time estimator (`hdd_seek_get_time`), the
segmented read cache with read-ahead (`hdd_timing_read`,
`hdd_readahead_update`) and the write-coalescing cache
(`hdd_timing_write`, `hdd_writecache_update`, `hdd_writecache_flush`).

Modelling conventions:
* C `double` timing arithmetic is modelled by exact rational arithmetic
  (the doubles in this code hold values derived from small integers and
  exact millisecond constants);
* `uint32_t` / `uint64_t` counters are modelled as `Nat`.  Subtractions
  that can wrap in C are made explicit via `u32sub` / `u64sub`, and the
  `int32_t` reinterpretation of a `uint32_t` value via `i32ofU32`; the
  additive/multiplicative overflow of 32-bit counters is not modelled
  (the emulator constrains drives well below 2^32 sectors), and the
  general theorems carry explicit smallness hypotheses where needed;
* the global clock `tsc` and the frequency `cpuclock` are passed as
  parameters to the functions that read them.
-/

def U32 : Nat := 4294967296

def U64 : Nat := 18446744073709551616

/-- `uint32_t` subtraction `a - b` (wrap-around). -/
def u32sub (a b : Nat) : Nat := (a % U32 + U32 - b % U32) % U32

/-- `uint64_t` subtraction `a - b` (wrap-around). -/
def u64sub (a b : Nat) : Nat := (a % U64 + U64 - b % U64) % U64

/-- Reinterpretation of a `uint32_t` bit pattern as `int32_t`. -/
def i32ofU32 (n : Nat) : Int :=
  if n % U32 < 2147483648 then (n % U32 : Int) else (n % U32 : Int) - (U32 : Int)

/-- `(uint32_t) ceil(q)` for a nonnegative rational `q`. -/
def natCeilQ (q : ℚ) : Nat := (Int.ceil q).toNat

/-- `(uint32_t) q` (truncating double-to-integer cast) for nonnegative `q`. -/
def u32OfRat (q : ℚ) : Nat := (Int.floor q).toNat % U32

/-- The three access kinds passed to `hdd_seek_get_time`
    (`HDD_OP_SEEK`, `HDD_OP_READ`, `HDD_OP_WRITE`). -/
inductive HddOp where
  | opSeek : HddOp
  | opRead : HddOp
  | opWrite : HddOp
deriving DecidableEq, Repr

/-- One entry of `hdd_zone_t`. -/
structure HddZone where
  cylinders : Nat
  sectors_per_track : Nat
  start_sector : Nat
  start_track : Nat
  end_sector : Nat
  sector_time_usec : ℚ
deriving DecidableEq, Repr, Inhabited

/-- One read-cache segment (`hdd_cache_seg_t`). -/
structure HddCacheSeg where
  id : Nat
  valid : Bool
  lba_addr : Nat
  host_addr : Nat
  ra_addr : Nat
  lru : Nat
deriving DecidableEq, Repr, Inhabited

/-- The combined read/write cache record (`hdd_cache_t`).  The segment
    count is the length of `segments`. -/
structure HddCache where
  segment_size : Nat
  segments : List HddCacheSeg
  ra_ongoing : Bool
  ra_segment : Nat
  ra_start_time : Nat
  write_addr : Nat
  write_pending : Nat
  write_size : Nat
  write_start_time : Nat
deriving DecidableEq, Repr, Inhabited

/-- The drive state (`hard_disk_t`), restricted to the fields the timing
    engine reads or writes.  `num_zones` is the length of `zones`. -/
structure HardDisk where
  speed_preset : Nat
  zones : List HddZone
  phy_heads : Nat
  phy_cyl : Nat
  rpm : Nat
  avg_rotation_lat_usec : ℚ
  full_stroke_usec : ℚ
  head_switch_usec : ℚ
  cyl_switch_usec : ℚ
  cur_addr : Nat
  cur_track : Nat
  cur_cylinder : Nat
  cache : HddCache
  tracks : Nat
  hpc : Nat
  spt : Nat
deriving DecidableEq, Repr, Inhabited

def HDD_OVERHEAD_TIME : ℚ := 50

/-- The zone-location linear scan at the top of `hdd_seek_get_time`:
    take the first zone whose `end_sector` is `≥ dst`, or the last zone
    if none qualifies. -/
def hdd_zone_find : List HddZone → Nat → HddZone
  | [], _ => default
  | [z], _ => z
  | z :: z2 :: rest, dst => if dst ≤ z.end_sector then z else hdd_zone_find (z2 :: rest) dst

/-- `new_track` in `hdd_seek_get_time`. -/
def hdd_seek_dst_track (s : HardDisk) (dst : Nat) : Nat :=
  let z := hdd_zone_find s.zones dst
  z.start_track + u32sub dst z.start_sector / z.sectors_per_track

/-- `new_cylinder` in `hdd_seek_get_time`. -/
def hdd_seek_dst_cylinder (s : HardDisk) (dst : Nat) : Nat :=
  hdd_seek_dst_track s dst / s.phy_heads

/-- The seek-time computation of `hdd_seek_get_time` (the value of its
    local `seek_time`), on the main path (nonzero preset, nonempty zone
    table). -/
def hdd_seek_time (s : HardDisk) (dst : Nat) (op : HddOp) (continuous : Bool) : ℚ :=
  let z := hdd_zone_find s.zones dst
  let new_track := hdd_seek_dst_track s dst
  let new_cylinder := hdd_seek_dst_cylinder s dst
  let cylinder_diff : Nat := ((s.cur_cylinder : Int) - (new_cylinder : Int)).natAbs
  let cont := continuous && decide (dst = s.cur_addr + 1)
  if cont then
    if new_track = s.cur_track then z.sector_time_usec
    else if cylinder_diff ≠ 0 then s.cyl_switch_usec else s.head_switch_usec
  else if cylinder_diff = 0 then
    (if op = HddOp.opSeek then HDD_OVERHEAD_TIME else s.avg_rotation_lat_usec)
  else
    s.cyl_switch_usec + s.full_stroke_usec * (cylinder_diff : ℚ) / (s.phy_cyl : ℚ) +
      (if op = HddOp.opSeek then 0 else s.avg_rotation_lat_usec)

/-- `hdd_seek_get_time`: returns the elapsed-time cost and the updated
    drive.  The mechanical position commits when `max_seek_time` is zero
    or the cost fits the budget. -/
def hdd_seek_get_time (s : HardDisk) (dst : Nat) (op : HddOp) (continuous : Bool)
    (max_seek_time : ℚ) : ℚ × HardDisk :=
  if s.speed_preset = 0 then (HDD_OVERHEAD_TIME, s)
  else if s.zones = [] then (1000, s)
  else if max_seek_time = 0 ∨ hdd_seek_time s dst op continuous ≤ max_seek_time then
    (hdd_seek_time s dst op continuous,
      { s with cur_addr := dst, cur_track := hdd_seek_dst_track s dst,
               cur_cylinder := hdd_seek_dst_cylinder s dst })
  else (hdd_seek_time s dst op continuous, s)

example : (hdd_seek_get_time default 0 HddOp.opRead true 0).1 = HDD_OVERHEAD_TIME := rfl

/-- The budgeted read-ahead catch-up loop in `hdd_readahead_update`:
    `fuel` is the loop bound `max_read_ahead`; returns the accumulated
    seek time, the drive after the committed seeks, and the final
    `ra_addr`.  The cursor advances only while the running total stays
    within `elapsed`. -/
def hdd_readahead_loop : Nat → HardDisk → Nat → ℚ → ℚ → ℚ × HardDisk × Nat
  | 0, s, ra, _, acc => (acc, s, ra)
  | n + 1, s, ra, elapsed, acc =>
    let r := hdd_seek_get_time s ra HddOp.opRead true (elapsed - acc)
    let acc' := acc + r.1
    if elapsed < acc' then (acc', r.2, ra)
    else hdd_readahead_loop n r.2 (ra + 1) elapsed acc'

/-- `hdd_readahead_update`: replay how far the armed read-ahead session
    would have progressed since `ra_start_time`, then slide the cached
    window if the cursor ran past it. -/
def hdd_readahead_update (tsc : Nat) (cpuclock : ℚ) (s : HardDisk) : HardDisk :=
  if s.cache.ra_ongoing then
    let seg := s.cache.segments.getD s.cache.ra_segment default
    let elapsed_us : ℚ := (u64sub tsc s.cache.ra_start_time : ℚ) / cpuclock * 1000000
    let max_read_ahead : Int := i32ofU32 (u32sub (seg.host_addr + s.cache.segment_size) seg.ra_addr)
    let r := hdd_readahead_loop max_read_ahead.toNat s seg.ra_addr elapsed_us 0
    let seg' := { seg with ra_addr := r.2.2 }
    let seg'' :=
      if seg'.lba_addr + s.cache.segment_size < seg'.ra_addr then
        { seg' with lba_addr := seg'.lba_addr + (seg'.ra_addr - (seg'.lba_addr + s.cache.segment_size)) }
      else seg'
    { r.2.1 with cache := { r.2.1.cache with
        segments := r.2.1.cache.segments.set s.cache.ra_segment seg'' } }
  else s

/-- The budgeted drain loop in `hdd_writecache_update`: `fuel` is the
    current `write_pending`; returns the drive after the committed
    seeks, the final `write_addr` and the remaining pending count. -/
def hdd_writecache_loop : Nat → HardDisk → Nat → ℚ → ℚ → HardDisk × Nat × Nat
  | 0, s, wa, _, _ => (s, wa, 0)
  | n + 1, s, wa, elapsed, acc =>
    let r := hdd_seek_get_time s wa HddOp.opWrite true (elapsed - acc)
    let acc' := acc + r.1
    if elapsed < acc' then (r.2, wa, n + 1)
    else hdd_writecache_loop n r.2 (wa + 1) elapsed acc'

/-- `hdd_writecache_update`: flush as much of the pending write run as
    the wall-clock time elapsed since `write_start_time` pays for. -/
def hdd_writecache_update (tsc : Nat) (cpuclock : ℚ) (s : HardDisk) : HardDisk :=
  if s.cache.write_pending ≠ 0 then
    let elapsed_us : ℚ := (u64sub tsc s.cache.write_start_time : ℚ) / cpuclock * 1000000
    let r := hdd_writecache_loop s.cache.write_pending s s.cache.write_addr elapsed_us 0
    { r.1 with cache := { r.1.cache with write_addr := r.2.1, write_pending := r.2.2 } }
  else s

/-- The unbudgeted per-sector charge loop shared by
    `hdd_writecache_flush` and the capacity flush in `hdd_timing_write`:
    charge `n` sectors starting at `wa` (continuous, write, uncapped),
    advancing the address. -/
def hdd_writecache_flush_loop : Nat → HardDisk → Nat → ℚ × HardDisk × Nat
  | 0, s, wa => (0, s, wa)
  | n + 1, s, wa =>
    let r := hdd_seek_get_time s wa HddOp.opWrite true 0
    let r2 := hdd_writecache_flush_loop n r.2 (wa + 1)
    (r.1 + r2.1, r2.2.1, r2.2.2)

/-- `hdd_writecache_flush`: drain the whole pending run, charging one
    sector at a time. -/
def hdd_writecache_flush (s : HardDisk) : ℚ × HardDisk :=
  let r := hdd_writecache_flush_loop s.cache.write_pending s s.cache.write_addr
  (r.1, { r.2.1 with cache := { r.2.1.cache with write_addr := r.2.2, write_pending := 0 } })

/-- The segment scan of `hdd_timing_read`: walk the segments tracking
    the eviction candidate `active_seg` (an invalid segment, else the
    valid non-hit segment with the largest `lru` seen so far), stopping
    at the first valid segment whose window contains `addr`.  Returns
    the chosen index and whether it was a hit. -/
def hdd_cache_scan_go (size addr : Nat) : List HddCacheSeg → Nat → Nat → Nat → Nat × Bool
  | [], _, activeIdx, _ => (activeIdx, false)
  | seg :: rest, i, activeIdx, activeLru =>
    if !seg.valid then hdd_cache_scan_go size addr rest (i + 1) i seg.lru
    else if seg.lba_addr ≤ addr ∧ addr ≤ seg.lba_addr + size then (i, true)
    else if activeLru < seg.lru then hdd_cache_scan_go size addr rest (i + 1) i seg.lru
    else hdd_cache_scan_go size addr rest (i + 1) activeIdx activeLru

def hdd_cache_scan (segs : List HddCacheSeg) (size addr : Nat) : Nat × Bool :=
  match segs with
  | [] => (0, false)
  | s0 :: _ => hdd_cache_scan_go size addr segs 0 0 s0.lru

/-- The hit-path read-ahead extension loop of `hdd_timing_read`: charge
    `n` sectors (continuous, read, uncapped) starting at `ra`. -/
def hdd_charge_hit : Nat → HardDisk → Nat → ℚ × HardDisk × Nat
  | 0, s, ra => (0, s, ra)
  | n + 1, s, ra =>
    let r := hdd_seek_get_time s ra HddOp.opRead true 0
    let r2 := hdd_charge_hit n r.2 (ra + 1)
    (r.1 + r2.1, r2.2.1, r2.2.2)

/-- The miss-path charge loop of `hdd_timing_read`: the first sector is
    charged as a discrete access (`continuous = (i != 0)`), the rest as
    continuous. -/
def hdd_charge_miss : Nat → Bool → HardDisk → Nat → ℚ × HardDisk × Nat
  | 0, _, s, ra => (0, s, ra)
  | n + 1, notFirst, s, ra =>
    let r := hdd_seek_get_time s ra HddOp.opRead notFirst 0
    let r2 := hdd_charge_miss n true r.2 (ra + 1)
    (r.1 + r2.1, r2.2.1, r2.2.2)

/-- The part of `hdd_timing_read` that follows the two catch-up calls:
    flush the write cache, scan, resolve hit/miss, update the LRU
    counters and re-arm the read-ahead session. -/
def hdd_timing_read_core (tsc : Nat) (cpuclock : ℚ) (s : HardDisk) (addr len : Nat) :
    ℚ × HardDisk :=
  let f := hdd_writecache_flush s
  let s3 := f.2
  let scan := hdd_cache_scan s3.cache.segments s3.cache.segment_size addr
  let idx := scan.1
  let seg0 := s3.cache.segments.getD idx default
  let res :=
    if scan.2 then
      let segA := { seg0 with host_addr := addr }
      let ext :=
        if segA.ra_addr < addr + len then hdd_charge_hit (addr + len - segA.ra_addr) s3 segA.ra_addr
        else (0, s3, segA.ra_addr)
      let segB := { segA with ra_addr := ext.2.2 }
      let segC :=
        if segB.lba_addr + s3.cache.segment_size < addr + len then
          { segB with lba_addr := segB.lba_addr + ((addr + len) - (segB.lba_addr + s3.cache.segment_size)) }
        else segB
      (ext.1, ext.2.1, segC)
    else
      let segA := { seg0 with lba_addr := addr, valid := true, host_addr := addr, ra_addr := addr }
      let chg := hdd_charge_miss len false s3 addr
      (chg.1, chg.2.1, { segA with ra_addr := chg.2.2 })
  let cost := f.1 + res.1
  let s4 := res.2.1
  let segs2 := (s4.cache.segments.set idx res.2.2).map fun g => { g with lru := g.lru + 1 }
  let segs3 := segs2.set idx { (segs2.getD idx default) with lru := 0 }
  (cost, { s4 with cache := { s4.cache with
      segments := segs3, ra_ongoing := true, ra_segment := res.2.2.id,
      ra_start_time := (tsc + u32OfRat (cost * cpuclock / 1000000)) % U64 } })

/-- `hdd_timing_read`. -/
def hdd_timing_read (tsc : Nat) (cpuclock : ℚ) (s : HardDisk) (addr len : Nat) :
    ℚ × HardDisk :=
  if s.speed_preset = 0 then (HDD_OVERHEAD_TIME, s)
  else
    hdd_timing_read_core tsc cpuclock
      (hdd_writecache_update tsc cpuclock (hdd_readahead_update tsc cpuclock s)) addr len

/-- The part of `hdd_timing_write` that follows the two catch-up calls:
    disarm read-ahead, flush on non-contiguity, buffer the new run and
    partially flush any capacity excess (without decrementing
    `write_pending`). -/
def hdd_timing_write_core (tsc : Nat) (cpuclock : ℚ) (s : HardDisk) (addr len : Nat) :
    ℚ × HardDisk :=
  let s3 := { s with cache := { s.cache with ra_ongoing := false } }
  let fl :=
    if s3.cache.write_pending ≠ 0 ∧ addr ≠ s3.cache.write_addr + s3.cache.write_pending then
      hdd_writecache_flush s3
    else (0, s3)
  let s4 := fl.2
  let s5 :=
    if s4.cache.write_pending = 0 then { s4 with cache := { s4.cache with write_addr := addr } }
    else s4
  let p := s5.cache.write_pending + len
  let s6 := { s5 with cache := { s5.cache with write_pending := p } }
  let pf :=
    if s6.cache.write_size < p then
      hdd_writecache_flush_loop (p - s6.cache.write_size) s6 s6.cache.write_addr
    else (0, s6, s6.cache.write_addr)
  let cost := fl.1 + pf.1
  (cost, { pf.2.1 with cache := { pf.2.1.cache with
      write_addr := pf.2.2,
      write_start_time := (tsc + u32OfRat (cost * cpuclock / 1000000)) % U64 } })

/-- `hdd_timing_write`. -/
def hdd_timing_write (tsc : Nat) (cpuclock : ℚ) (s : HardDisk) (addr len : Nat) :
    ℚ × HardDisk :=
  if s.speed_preset = 0 then (HDD_OVERHEAD_TIME, s)
  else
    hdd_timing_write_core tsc cpuclock
      (hdd_writecache_update tsc cpuclock (hdd_readahead_update tsc cpuclock s)) addr len


/-- The static per-model parameter record (`hdd_preset_t`), restricted
    to the fields `hdd_preset_apply` reads.  Preset-table lookup and
    index clamping happen outside this model: a resolved record is
    passed in directly. -/
structure HddPreset where
  zones : Nat
  avg_spt : Nat
  heads : Nat
  rpm : Nat
  full_stroke_ms : ℚ
  track_seek_ms : ℚ
  rcache_num_seg : Nat
  rcache_seg_size : Nat
  max_multiple : Nat
deriving DecidableEq, Repr, Inhabited

/-- `zone_percent = i * 100 / (double) preset->zones`. -/
def hdd_zone_percent (i zones : Nat) : ℚ := ((i * 100 : Nat) : ℚ) / (zones : ℚ)

/-- The fixed downward-curving density quadratic
    `-0.00341684 * zp^2 - 0.175811 * zp + 118.48`. -/
def hdd_spt_percent (i zones : Nat) : ℚ :=
  -(341684 / 100000000 : ℚ) * hdd_zone_percent i zones ^ 2 -
    (175811 / 1000000 : ℚ) * hdd_zone_percent i zones + 11848 / 100

/-- The sectors-per-track chosen for zone `i` in `hdd_preset_apply`:
    density quadratic for every zone but the last, ceiling of the exact
    remainder for the last. -/
def hdd_preset_zone_spt (p : HddPreset) (i disk_sectors total cpz : Nat) : Nat :=
  if i + 1 < p.zones then
    natCeilQ ((p.avg_spt : ℚ) * hdd_spt_percent i p.zones / 100)
  else
    natCeilQ ((u32sub disk_sectors total : ℚ) / ((cpz * p.heads : Nat) : ℚ))

/-- The zone-building loop of `hdd_preset_apply`: starting at zone `i`
    with `r` zones left to build and the running `total_sectors`,
    return the `(cylinders, sectors_per_track)` pairs and the final
    running total. -/
def hdd_build_go (p : HddPreset) (ds cpz : Nat) : Nat → Nat → Nat → List (Nat × Nat) × Nat
  | _, 0, total => ([], total)
  | i, r + 1, total =>
    let spt := hdd_preset_zone_spt p i ds total cpz
    let rest := hdd_build_go p ds cpz (i + 1) r (total + spt * cpz * p.heads)
    ((cpz, spt) :: rest.1, rest.2)

/-- `disk_sectors = hd->tracks * hd->hpc * hd->spt`. -/
def presetDiskSectors (s : HardDisk) : Nat := s.tracks * s.hpc * s.spt

/-- `cylinders = ceil(ceil(disk_sectors / heads) / avg_spt)`. -/
def presetCylinders (p : HddPreset) (s : HardDisk) : Nat :=
  natCeilQ (((natCeilQ ((presetDiskSectors s : ℚ) / (p.heads : ℚ)) : Nat) : ℚ) / (p.avg_spt : ℚ))

/-- `cylinders_per_zone = cylinders / preset->zones` (integer division). -/
def presetCpz (p : HddPreset) (s : HardDisk) : Nat := presetCylinders p s / p.zones

/-- The `(cylinders, sectors_per_track)` pairs `hdd_preset_apply` feeds
    into `hdd_zones_init` for drive `s`. -/
def presetBuild (p : HddPreset) (s : HardDisk) : List (Nat × Nat) :=
  (hdd_build_go p (presetDiskSectors s) (presetCpz p s) 0 p.zones 0).1

/-- The final running `total_sectors` of the zone-building loop. -/
def presetTotal (p : HddPreset) (s : HardDisk) : Nat :=
  (hdd_build_go p (presetDiskSectors s) (presetCpz p s) 0 p.zones 0).2

/-- The running `total_sectors` just before the last zone is built. -/
def presetTotalBL (p : HddPreset) (s : HardDisk) : Nat :=
  (hdd_build_go p (presetDiskSectors s) (presetCpz p s) 0 (p.zones - 1) 0).2

/-- The loop body of `hdd_zones_init`: assign `start_sector`,
    `start_track`, `sector_time_usec` and `end_sector` to each zone,
    accumulating the LBA and track counters. -/
def hdd_zones_init_go (rev : ℚ) (heads : Nat) : Nat → Nat → List (Nat × Nat) → List HddZone
  | _, _, [] => []
  | lba, track, (cyl, sp) :: rest =>
    let tracks := cyl * heads
    let lba2 := lba + tracks * sp
    { cylinders := cyl, sectors_per_track := sp, start_sector := lba, start_track := track,
      sector_time_usec := rev / (sp : ℚ), end_sector := u32sub lba2 1 } ::
      hdd_zones_init_go rev heads lba2 (track + u32sub tracks 1) rest

/-- `hdd_zones_init` over the zone materials (cylinder count and
    sectors-per-track of each zone). -/
def hdd_zones_init (rev : ℚ) (heads : Nat) (ms : List (Nat × Nat)) : List HddZone :=
  hdd_zones_init_go rev heads 0 0 ms

/-- `hdd_cache_init`: reset the read-ahead session and every segment
    (the C loop leaves `lba_addr` alone; segment count comes from the
    preset). -/
def hdd_cache_init (c : HddCache) (num_segments : Nat) : HddCache :=
  { c with
    ra_segment := 0
    ra_ongoing := false
    ra_start_time := 0
    segments := (List.range num_segments).map fun i =>
      { id := i, valid := false, lru := 0, ra_addr := 0, host_addr := 0,
        lba_addr := (c.segments.getD i default).lba_addr } }

/-- `hdd_preset_apply` for a resolved preset record `p`: set the cache
    sizing, and — for a nonzero speed preset — derive the physical
    geometry, timing parameters and zone table, then reinitialize the
    caches. -/
def hdd_preset_apply (p : HddPreset) (s : HardDisk) : HardDisk :=
  let s1 := { s with cache := { s.cache with segment_size := p.rcache_seg_size } }
  if s1.speed_preset = 0 then s1
  else
    let rev : ℚ := 60 / (p.rpm : ℚ) * 1000000
    { s1 with
      phy_heads := p.heads, rpm := p.rpm,
      avg_rotation_lat_usec := rev / 2,
      full_stroke_usec := p.full_stroke_ms * 1000,
      head_switch_usec := p.track_seek_ms * 1000,
      cyl_switch_usec := p.track_seek_ms * 1000,
      phy_cyl := presetCylinders p s,
      zones := hdd_zones_init rev p.heads (presetBuild p s),
      cache := hdd_cache_init { s1.cache with write_size := 64 } p.rcache_num_seg }

/-! ### Concrete fixtures used by the counterexamples and witnesses -/

/-- A single-zone table entry: 100 sectors per track, 10 us per sector. -/
def zoneA : HddZone :=
  { cylinders := 1, sectors_per_track := 100, start_sector := 0, start_track := 0,
    end_sector := 99999, sector_time_usec := 10 }

/-- A zone with 2 sectors per track, so that sequential accesses cross
    tracks (and cylinders, with one head) quickly. -/
def zoneB : HddZone :=
  { cylinders := 1, sectors_per_track := 2, start_sector := 0, start_track := 0,
    end_sector := 99999, sector_time_usec := 10 }

/-- A zone whose per-sector rotation time is exactly 1 us. -/
def zoneC : HddZone :=
  { cylinders := 1, sectors_per_track := 10, start_sector := 0, start_track := 0,
    end_sector := 99999, sector_time_usec := 1 }

/-- An empty cache: no valid segments, nothing pending, write capacity 2. -/
def cacheEmpty : HddCache :=
  { segment_size := 4, segments := [], ra_ongoing := false, ra_segment := 0,
    ra_start_time := 0, write_addr := 0, write_pending := 0, write_size := 2,
    write_start_time := 0 }

/-- A baseline configured drive (speed preset 1) over `zoneA`. -/
def sBase : HardDisk :=
  { speed_preset := 1, zones := [zoneA], phy_heads := 1, phy_cyl := 10, rpm := 3600,
    avg_rotation_lat_usec := 111, full_stroke_usec := 40000, head_switch_usec := 5000,
    cyl_switch_usec := 7000, cur_addr := 0, cur_track := 0, cur_cylinder := 0,
    cache := cacheEmpty, tracks := 10, hpc := 1, spt := 100 }

/-- Drive positioned at sector 1 of a 2-sectors-per-track zone: the next
    sequential sector lies on a different track and cylinder. -/
def sC2 : HardDisk := { sBase with zones := [zoneB], cur_addr := 1 }

/-- Drive whose continuous same-track cost is exactly 1 us. -/
def sC3 : HardDisk := { sBase with zones := [zoneC] }

/-- One valid read-cache segment caching window [0,4] with cursor at 5. -/
def segV : HddCacheSeg :=
  { id := 0, valid := true, lba_addr := 0, host_addr := 0, ra_addr := 5, lru := 0 }

/-- Drive with the single valid segment `segV` (segment size 4). -/
def sC5 : HardDisk :=
  { sBase with cache := { cacheEmpty with segments := [segV] } }

/-- An invalid segment with identifier `i`. -/
def segInv (i : Nat) : HddCacheSeg :=
  { id := i, valid := false, lba_addr := 0, host_addr := 0, ra_addr := 0, lru := 0 }

/-- Drive with two invalid segments (fresh cache), segment size 8. -/
def sC7 : HardDisk :=
  { sBase with cache := { cacheEmpty with
      segment_size := 8
      segments := [segInv 0, segInv 1] } }

/-- Drive with a nonzero speed preset but an empty zone table. -/
def sC9 : HardDisk := { sBase with zones := [] }

/-- The `[Generic] 1989 (3500 RPM)` catalog preset. -/
def pGen1989 : HddPreset :=
  { zones := 1, avg_spt := 35, heads := 2, rpm := 3500, full_stroke_ms := 40,
    track_seek_ms := 8, rcache_num_seg := 1, rcache_seg_size := 16, max_multiple := 8 }

/-- The `[PIO-ATA] HP C2233 A` catalog preset (2 zones). -/
def pC2233A : HddPreset :=
  { zones := 2, avg_spt := 126, heads := 1, rpm := 3600, full_stroke_ms := 33,
    track_seek_ms := 3, rcache_num_seg := 1, rcache_seg_size := 64, max_multiple := 1 }

/-- A classic 306/4/17 CHS geometry (20808 logical sectors). -/
def sGeo : HardDisk := { sBase with tracks := 306, hpc := 4, spt := 17 }

/-- A 10/2/63 CHS geometry (1260 logical sectors). -/
def sGeoW : HardDisk := { sBase with tracks := 10, hpc := 2, spt := 63 }

/-- Total sector count described by a list of `(cylinders, spt)` zone
    materials, at `heads` heads: each zone spans `cyl * heads * spt`
    sectors. -/
def zoneSectors (heads : Nat) : List (Nat × Nat) → Nat
  | [] => 0
  | (c, sp) :: rest => c * heads * sp + zoneSectors heads rest

/-! ### Arithmetic helper lemmas -/

theorem natCeilQ_eq_of (q : ℚ) (n : Nat) (h1 : (n : ℚ) - 1 < q) (h2 : q ≤ (n : ℚ)) :
    natCeilQ q = n := by
  have hc : (⌈q⌉ : ℤ) = (n : ℤ) := by
    rw [Int.ceil_eq_iff]
    constructor
    · push_cast
      linarith
    · push_cast
      linarith
  rw [natCeilQ, hc]
  simp

theorem natCeilQ_pos (q : ℚ) (h : 0 < q) : 0 < natCeilQ q := by
  rw [natCeilQ]
  have := Int.ceil_pos.mpr h
  omega

theorem le_natCeilQ_mul (a b : Nat) (hb : b ≠ 0) :
    a ≤ natCeilQ ((a : ℚ) / (b : ℚ)) * b := by
  have hb' : (0 : ℚ) < (b : ℚ) := by
    exact_mod_cast Nat.pos_of_ne_zero hb
  have h0 : (0 : ℤ) ≤ ⌈(a : ℚ) / (b : ℚ)⌉ := Int.ceil_nonneg (by positivity)
  have h1 : ((a : ℚ) / (b : ℚ)) ≤ (⌈(a : ℚ) / (b : ℚ)⌉ : ℚ) := Int.le_ceil _
  rw [div_le_iff₀ hb'] at h1
  have h4 : ((⌈(a : ℚ) / (b : ℚ)⌉.toNat : Nat) : ℚ) = ((⌈(a : ℚ) / (b : ℚ)⌉ : ℤ) : ℚ) := by
    exact_mod_cast Int.toNat_of_nonneg h0
  have h5 : (a : ℚ) ≤ ((⌈(a : ℚ) / (b : ℚ)⌉.toNat : Nat) : ℚ) * (b : ℚ) := by
    rw [h4]
    exact h1
  rw [natCeilQ]
  exact_mod_cast h5

theorem u32sub_eq (a b : Nat) (hba : b ≤ a) (ha : a < U32) : u32sub a b = a - b := by
  simp only [u32sub, U32] at *
  omega

theorem u64sub_mod_self (t : Nat) : u64sub t (t % U64) = 0 := by
  simp only [u64sub, U64]
  omega

theorem i32ofU32_toNat_of_lt (n : Nat) (h : n < 2147483648) : (i32ofU32 n).toNat = n := by
  have hm : n % U32 = n := Nat.mod_eq_of_lt (by simp only [U32]; omega)
  rw [i32ofU32, hm, if_pos h]
  omega

theorem i32ofU32_toNat_of_ge (n : Nat) (h : ¬ n % U32 < 2147483648) : (i32ofU32 n).toNat = 0 := by
  rw [i32ofU32, if_neg h]
  have : ((n % U32 : Nat) : Int) - (U32 : Int) < 0 := by
    have := Nat.mod_lt n (y := U32) (by simp only [U32]; omega)
    simp only [U32] at *
    omega
  omega

/-! ### Structural lemmas about `hdd_seek_get_time` -/

theorem hdd_zone_find_mem (zs : List HddZone) (dst : Nat) (h : zs ≠ []) :
    hdd_zone_find zs dst ∈ zs := by
  induction zs with
  | nil => exact absurd rfl h
  | cons z rest ih =>
    cases rest with
    | nil => simp [hdd_zone_find]
    | cons z2 r2 =>
      rw [hdd_zone_find]
      split
      · exact List.mem_cons_self _ _
      · exact List.mem_cons_of_mem _ (ih (by simp))

/-- The two possible result states of `hdd_seek_get_time`: unchanged, or
    the mechanical position moved to the destination. -/
theorem hdd_seek_snd_cases (s : HardDisk) (dst : Nat) (op : HddOp) (c : Bool) (m : ℚ) :
    (hdd_seek_get_time s dst op c m).2 = s ∨
    (hdd_seek_get_time s dst op c m).2 =
      { s with cur_addr := dst, cur_track := hdd_seek_dst_track s dst,
               cur_cylinder := hdd_seek_dst_cylinder s dst } := by
  rw [hdd_seek_get_time]
  split
  · exact Or.inl rfl
  split
  · exact Or.inl rfl
  split
  · exact Or.inr rfl
  · exact Or.inl rfl

@[simp]
theorem hdd_seek_cache (s : HardDisk) (dst : Nat) (op : HddOp) (c : Bool) (m : ℚ) :
    (hdd_seek_get_time s dst op c m).2.cache = s.cache := by
  rcases hdd_seek_snd_cases s dst op c m with h | h <;> rw [h]

@[simp]
theorem hdd_seek_preset (s : HardDisk) (dst : Nat) (op : HddOp) (c : Bool) (m : ℚ) :
    (hdd_seek_get_time s dst op c m).2.speed_preset = s.speed_preset := by
  rcases hdd_seek_snd_cases s dst op c m with h | h <;> rw [h]

@[simp]
theorem hdd_seek_zones (s : HardDisk) (dst : Nat) (op : HddOp) (c : Bool) (m : ℚ) :
    (hdd_seek_get_time s dst op c m).2.zones = s.zones := by
  rcases hdd_seek_snd_cases s dst op c m with h | h <;> rw [h]

@[simp]
theorem hdd_seek_phy_heads (s : HardDisk) (dst : Nat) (op : HddOp) (c : Bool) (m : ℚ) :
    (hdd_seek_get_time s dst op c m).2.phy_heads = s.phy_heads := by
  rcases hdd_seek_snd_cases s dst op c m with h | h <;> rw [h]

@[simp]
theorem hdd_seek_phy_cyl (s : HardDisk) (dst : Nat) (op : HddOp) (c : Bool) (m : ℚ) :
    (hdd_seek_get_time s dst op c m).2.phy_cyl = s.phy_cyl := by
  rcases hdd_seek_snd_cases s dst op c m with h | h <;> rw [h]

@[simp]
theorem hdd_seek_rpm (s : HardDisk) (dst : Nat) (op : HddOp) (c : Bool) (m : ℚ) :
    (hdd_seek_get_time s dst op c m).2.rpm = s.rpm := by
  rcases hdd_seek_snd_cases s dst op c m with h | h <;> rw [h]

@[simp]
theorem hdd_seek_avg_rot (s : HardDisk) (dst : Nat) (op : HddOp) (c : Bool) (m : ℚ) :
    (hdd_seek_get_time s dst op c m).2.avg_rotation_lat_usec = s.avg_rotation_lat_usec := by
  rcases hdd_seek_snd_cases s dst op c m with h | h <;> rw [h]

@[simp]
theorem hdd_seek_full_stroke (s : HardDisk) (dst : Nat) (op : HddOp) (c : Bool) (m : ℚ) :
    (hdd_seek_get_time s dst op c m).2.full_stroke_usec = s.full_stroke_usec := by
  rcases hdd_seek_snd_cases s dst op c m with h | h <;> rw [h]

@[simp]
theorem hdd_seek_head_switch (s : HardDisk) (dst : Nat) (op : HddOp) (c : Bool) (m : ℚ) :
    (hdd_seek_get_time s dst op c m).2.head_switch_usec = s.head_switch_usec := by
  rcases hdd_seek_snd_cases s dst op c m with h | h <;> rw [h]

@[simp]
theorem hdd_seek_cyl_switch (s : HardDisk) (dst : Nat) (op : HddOp) (c : Bool) (m : ℚ) :
    (hdd_seek_get_time s dst op c m).2.cyl_switch_usec = s.cyl_switch_usec := by
  rcases hdd_seek_snd_cases s dst op c m with h | h <;> rw [h]

@[simp]
theorem hdd_seek_tracks (s : HardDisk) (dst : Nat) (op : HddOp) (c : Bool) (m : ℚ) :
    (hdd_seek_get_time s dst op c m).2.tracks = s.tracks := by
  rcases hdd_seek_snd_cases s dst op c m with h | h <;> rw [h]

@[simp]
theorem hdd_seek_hpc (s : HardDisk) (dst : Nat) (op : HddOp) (c : Bool) (m : ℚ) :
    (hdd_seek_get_time s dst op c m).2.hpc = s.hpc := by
  rcases hdd_seek_snd_cases s dst op c m with h | h <;> rw [h]

@[simp]
theorem hdd_seek_spt (s : HardDisk) (dst : Nat) (op : HddOp) (c : Bool) (m : ℚ) :
    (hdd_seek_get_time s dst op c m).2.spt = s.spt := by
  rcases hdd_seek_snd_cases s dst op c m with h | h <;> rw [h]

/-- The returned cost does not depend on the budget `max_seek_time`. -/
theorem hdd_seek_fst (s : HardDisk) (dst : Nat) (op : HddOp) (c : Bool) (m : ℚ) :
    (hdd_seek_get_time s dst op c m).1 =
      if s.speed_preset = 0 then HDD_OVERHEAD_TIME
      else if s.zones = [] then (1000 : ℚ)
      else hdd_seek_time s dst op c := by
  rw [hdd_seek_get_time]
  split
  · rfl
  split
  · rfl
  split <;> rfl

theorem hdd_seek_commit (s : HardDisk) (dst : Nat) (op : HddOp) (c : Bool) (m : ℚ)
    (hp : ¬ s.speed_preset = 0) (hz : ¬ s.zones = [])
    (h : m = 0 ∨ hdd_seek_time s dst op c ≤ m) :
    (hdd_seek_get_time s dst op c m).2 =
      { s with cur_addr := dst, cur_track := hdd_seek_dst_track s dst,
               cur_cylinder := hdd_seek_dst_cylinder s dst } := by
  rw [hdd_seek_get_time, if_neg hp, if_neg hz, if_pos h]

theorem hdd_seek_reject (s : HardDisk) (dst : Nat) (op : HddOp) (c : Bool) (m : ℚ)
    (h1 : m ≠ 0) (h2 : ¬ hdd_seek_time s dst op c ≤ m) :
    (hdd_seek_get_time s dst op c m).2 = s := by
  rw [hdd_seek_get_time]
  split
  · rfl
  split
  · rfl
  split
  · rename_i h
    rcases h with h | h
    · exact absurd h h1
    · exact absurd h h2
  · rfl

/-- Positivity assumptions on the timing parameters that every
    preset-configured drive satisfies; they make every seek cost
    strictly positive. -/
def GoodTiming (s : HardDisk) : Prop :=
  0 < s.head_switch_usec ∧ 0 < s.cyl_switch_usec ∧ 0 < s.avg_rotation_lat_usec ∧
    0 ≤ s.full_stroke_usec ∧ ∀ z ∈ s.zones, 0 < z.sector_time_usec

theorem hdd_seek_time_pos (s : HardDisk) (dst : Nat) (op : HddOp) (c : Bool)
    (hg : GoodTiming s) (hz : s.zones ≠ []) : 0 < hdd_seek_time s dst op c := by
  obtain ⟨hhs, hcs, har, hfs, hzt⟩ := hg
  have hzmem := hdd_zone_find_mem s.zones dst hz
  simp only [hdd_seek_time]
  split
  · split
    · exact hzt _ hzmem
    · split
      · exact hcs
      · exact hhs
  · split
    · split
      · norm_num [HDD_OVERHEAD_TIME]
      · exact har
    · have hdiv : (0 : ℚ) ≤ s.full_stroke_usec * (((s.cur_cylinder : Int) - (hdd_seek_dst_cylinder s dst : Int)).natAbs : ℚ) / (s.phy_cyl : ℚ) := by
        positivity
      split
      · linarith
      · linarith

theorem hdd_seek_pos (s : HardDisk) (dst : Nat) (op : HddOp) (c : Bool) (m : ℚ)
    (hg : GoodTiming s) : 0 < (hdd_seek_get_time s dst op c m).1 := by
  rw [hdd_seek_fst]
  split
  · norm_num [HDD_OVERHEAD_TIME]
  split
  · norm_num
  · rename_i h1 h2
    exact hdd_seek_time_pos s dst op c hg h2

theorem hdd_seek_GoodTiming (s : HardDisk) (dst : Nat) (op : HddOp) (c : Bool) (m : ℚ)
    (hg : GoodTiming s) : GoodTiming (hdd_seek_get_time s dst op c m).2 := by
  rcases hdd_seek_snd_cases s dst op c m with h | h <;> rw [h] <;> exact hg

/-! ### Loop lemmas -/

@[simp]
theorem u32OfRat_zero : u32OfRat 0 = 0 := by
  simp [u32OfRat]

theorem hdd_charge_hit_ra (n : Nat) (s : HardDisk) (ra : Nat) :
    (hdd_charge_hit n s ra).2.2 = ra + n := by
  induction n generalizing s ra with
  | zero => simp [hdd_charge_hit]
  | succ k ih =>
    simp only [hdd_charge_hit]
    rw [ih]
    omega

theorem hdd_charge_hit_cache (n : Nat) (s : HardDisk) (ra : Nat) :
    (hdd_charge_hit n s ra).2.1.cache = s.cache := by
  induction n generalizing s ra with
  | zero => simp [hdd_charge_hit]
  | succ k ih =>
    simp only [hdd_charge_hit]
    rw [ih, hdd_seek_cache]

theorem hdd_charge_hit_preset (n : Nat) (s : HardDisk) (ra : Nat) :
    (hdd_charge_hit n s ra).2.1.speed_preset = s.speed_preset := by
  induction n generalizing s ra with
  | zero => simp [hdd_charge_hit]
  | succ k ih =>
    simp only [hdd_charge_hit]
    rw [ih, hdd_seek_preset]

theorem hdd_charge_miss_ra (n : Nat) (b : Bool) (s : HardDisk) (ra : Nat) :
    (hdd_charge_miss n b s ra).2.2 = ra + n := by
  induction n generalizing b s ra with
  | zero => simp [hdd_charge_miss]
  | succ k ih =>
    simp only [hdd_charge_miss]
    rw [ih]
    omega

theorem hdd_charge_miss_cache (n : Nat) (b : Bool) (s : HardDisk) (ra : Nat) :
    (hdd_charge_miss n b s ra).2.1.cache = s.cache := by
  induction n generalizing b s ra with
  | zero => simp [hdd_charge_miss]
  | succ k ih =>
    simp only [hdd_charge_miss]
    rw [ih, hdd_seek_cache]

theorem hdd_charge_miss_preset (n : Nat) (b : Bool) (s : HardDisk) (ra : Nat) :
    (hdd_charge_miss n b s ra).2.1.speed_preset = s.speed_preset := by
  induction n generalizing b s ra with
  | zero => simp [hdd_charge_miss]
  | succ k ih =>
    simp only [hdd_charge_miss]
    rw [ih, hdd_seek_preset]

theorem hdd_flush_loop_wa (n : Nat) (s : HardDisk) (wa : Nat) :
    (hdd_writecache_flush_loop n s wa).2.2 = wa + n := by
  induction n generalizing s wa with
  | zero => simp [hdd_writecache_flush_loop]
  | succ k ih =>
    simp only [hdd_writecache_flush_loop]
    rw [ih]
    omega

theorem hdd_flush_loop_cache (n : Nat) (s : HardDisk) (wa : Nat) :
    (hdd_writecache_flush_loop n s wa).2.1.cache = s.cache := by
  induction n generalizing s wa with
  | zero => simp [hdd_writecache_flush_loop]
  | succ k ih =>
    simp only [hdd_writecache_flush_loop]
    rw [ih, hdd_seek_cache]

theorem hdd_flush_loop_preset (n : Nat) (s : HardDisk) (wa : Nat) :
    (hdd_writecache_flush_loop n s wa).2.1.speed_preset = s.speed_preset := by
  induction n generalizing s wa with
  | zero => simp [hdd_writecache_flush_loop]
  | succ k ih =>
    simp only [hdd_writecache_flush_loop]
    rw [ih, hdd_seek_preset]

theorem hdd_flush_loop_zones (n : Nat) (s : HardDisk) (wa : Nat) :
    (hdd_writecache_flush_loop n s wa).2.1.zones = s.zones := by
  induction n generalizing s wa with
  | zero => simp [hdd_writecache_flush_loop]
  | succ k ih =>
    simp only [hdd_writecache_flush_loop]
    rw [ih, hdd_seek_zones]

theorem hdd_flush_loop_GoodTiming (n : Nat) (s : HardDisk) (wa : Nat)
    (hg : GoodTiming s) : GoodTiming (hdd_writecache_flush_loop n s wa).2.1 := by
  induction n generalizing s wa with
  | zero => simpa [hdd_writecache_flush_loop] using hg
  | succ k ih =>
    simp only [hdd_writecache_flush_loop]
    exact ih _ _ (hdd_seek_GoodTiming _ _ _ _ _ hg)

theorem hdd_flush_loop_fst_nonneg (n : Nat) (s : HardDisk) (wa : Nat)
    (hg : GoodTiming s) : 0 ≤ (hdd_writecache_flush_loop n s wa).1 := by
  induction n generalizing s wa with
  | zero => simp [hdd_writecache_flush_loop]
  | succ k ih =>
    simp only [hdd_writecache_flush_loop]
    have h1 := hdd_seek_pos s wa HddOp.opWrite true 0 hg
    have h2 := ih (hdd_seek_get_time s wa HddOp.opWrite true 0).2 (wa + 1)
      (hdd_seek_GoodTiming _ _ _ _ _ hg)
    linarith

theorem hdd_flush_loop_fst_pos (n : Nat) (s : HardDisk) (wa : Nat)
    (hn : n ≠ 0) (hg : GoodTiming s) : 0 < (hdd_writecache_flush_loop n s wa).1 := by
  cases n with
  | zero => exact absurd rfl hn
  | succ k =>
    simp only [hdd_writecache_flush_loop]
    have h1 := hdd_seek_pos s wa HddOp.opWrite true 0 hg
    have h2 := hdd_flush_loop_fst_nonneg k (hdd_seek_get_time s wa HddOp.opWrite true 0).2 (wa + 1)
      (hdd_seek_GoodTiming _ _ _ _ _ hg)
    linarith

theorem hdd_readahead_loop_ra_ge (n : Nat) (s : HardDisk) (ra : Nat) (e acc : ℚ) :
    ra ≤ (hdd_readahead_loop n s ra e acc).2.2 := by
  induction n generalizing s ra acc with
  | zero => simp [hdd_readahead_loop]
  | succ k ih =>
    simp only [hdd_readahead_loop]
    split
    · exact le_refl _
    · exact le_trans (Nat.le_succ ra) (ih _ _ _)

theorem hdd_readahead_loop_ra_le (n : Nat) (s : HardDisk) (ra : Nat) (e acc : ℚ) :
    (hdd_readahead_loop n s ra e acc).2.2 ≤ ra + n := by
  induction n generalizing s ra acc with
  | zero => simp [hdd_readahead_loop]
  | succ k ih =>
    simp only [hdd_readahead_loop]
    split
    · exact Nat.le_add_right ra (k + 1)
    · have := ih (hdd_seek_get_time s ra HddOp.opRead true (e - acc)).2 (ra + 1) (acc + (hdd_seek_get_time s ra HddOp.opRead true (e - acc)).1)
      omega

theorem hdd_readahead_loop_cache (n : Nat) (s : HardDisk) (ra : Nat) (e acc : ℚ) :
    (hdd_readahead_loop n s ra e acc).2.1.cache = s.cache := by
  induction n generalizing s ra acc with
  | zero => simp [hdd_readahead_loop]
  | succ k ih =>
    simp only [hdd_readahead_loop]
    split
    · rw [hdd_seek_cache]
    · rw [ih, hdd_seek_cache]

theorem hdd_readahead_loop_preset (n : Nat) (s : HardDisk) (ra : Nat) (e acc : ℚ) :
    (hdd_readahead_loop n s ra e acc).2.1.speed_preset = s.speed_preset := by
  induction n generalizing s ra acc with
  | zero => simp [hdd_readahead_loop]
  | succ k ih =>
    simp only [hdd_readahead_loop]
    split
    · rw [hdd_seek_preset]
    · rw [ih, hdd_seek_preset]

theorem hdd_readahead_loop_zones (n : Nat) (s : HardDisk) (ra : Nat) (e acc : ℚ) :
    (hdd_readahead_loop n s ra e acc).2.1.zones = s.zones := by
  induction n generalizing s ra acc with
  | zero => simp [hdd_readahead_loop]
  | succ k ih =>
    simp only [hdd_readahead_loop]
    split
    · rw [hdd_seek_zones]
    · rw [ih, hdd_seek_zones]

theorem hdd_readahead_loop_GoodTiming (n : Nat) (s : HardDisk) (ra : Nat) (e acc : ℚ)
    (hg : GoodTiming s) : GoodTiming (hdd_readahead_loop n s ra e acc).2.1 := by
  induction n generalizing s ra acc with
  | zero => simpa [hdd_readahead_loop] using hg
  | succ k ih =>
    simp only [hdd_readahead_loop]
    split
    · exact hdd_seek_GoodTiming _ _ _ _ _ hg
    · exact ih _ _ _ (hdd_seek_GoodTiming _ _ _ _ _ hg)

theorem hddcache_eta_write (c : HddCache) (wa p : Nat) (h1 : wa = c.write_addr)
    (h2 : p = c.write_pending) : ({ c with write_addr := wa, write_pending := p } : HddCache) = c := by
  subst h1
  subst h2
  rfl

/-- With zero elapsed clock time and strictly positive seek costs, the
    budgeted write-cache drain only performs (and commits) a single
    probing seek: `write_addr` and `write_pending` do not move. -/
theorem hdd_writecache_update_zero (tsc : Nat) (cp : ℚ) (s : HardDisk)
    (h0 : s.cache.write_start_time = tsc % U64) (hg : GoodTiming s) :
    hdd_writecache_update tsc cp s =
      if s.cache.write_pending = 0 then s
      else (hdd_seek_get_time s s.cache.write_addr HddOp.opWrite true 0).2 := by
  rw [hdd_writecache_update]
  by_cases hp : s.cache.write_pending = 0
  · rw [if_neg (by simpa using hp), if_pos hp]
  · rw [if_pos hp, if_neg hp]
    have he : ((u64sub tsc s.cache.write_start_time : Nat) : ℚ) / cp * 1000000 = 0 := by
      rw [h0, u64sub_mod_self]
      simp
    rw [he]
    obtain ⟨k, hk⟩ : ∃ k, s.cache.write_pending = k + 1 := by
      cases hcp : s.cache.write_pending with
      | zero => exact absurd hcp hp
      | succ k => exact ⟨k, rfl⟩
    rw [hk]
    simp only [hdd_writecache_loop]
    rw [sub_zero]
    have hpos := hdd_seek_pos s s.cache.write_addr HddOp.opWrite true 0 hg
    rw [if_pos (by linarith)]
    rw [hddcache_eta_write _ _ _ (by rw [hdd_seek_cache]) (by rw [hdd_seek_cache, hk])]

theorem hdd_writecache_flush_pending_zero (s : HardDisk) (h : s.cache.write_pending = 0) :
    hdd_writecache_flush s = (0, s) := by
  rw [hdd_writecache_flush, h]
  simp only [hdd_writecache_flush_loop]
  rw [hddcache_eta_write _ _ _ rfl h.symm]

/-- Under the post-miss segment shape (`host_addr = lba_addr`, cursor
    inside the window), the catch-up step reduces to the budgeted loop:
    the tracked segment's `ra_addr` becomes the loop result and the
    window does not slide. -/
theorem hdd_readahead_update_eq_of (tsc : Nat) (cp : ℚ) (s : HardDisk)
    (hra : s.cache.ra_ongoing = true)
    (hh : (s.cache.segments.getD s.cache.ra_segment default).host_addr
        = (s.cache.segments.getD s.cache.ra_segment default).lba_addr)
    (hle : (s.cache.segments.getD s.cache.ra_segment default).ra_addr
        ≤ (s.cache.segments.getD s.cache.ra_segment default).host_addr + s.cache.segment_size)
    (hsm : (s.cache.segments.getD s.cache.ra_segment default).host_addr + s.cache.segment_size
        < 2147483648) :
    hdd_readahead_update tsc cp s =
      { (hdd_readahead_loop ((s.cache.segments.getD s.cache.ra_segment default).host_addr + s.cache.segment_size - (s.cache.segments.getD s.cache.ra_segment default).ra_addr) s (s.cache.segments.getD s.cache.ra_segment default).ra_addr (((u64sub tsc s.cache.ra_start_time : Nat) : ℚ) / cp * 1000000) 0).2.1 with cache := { s.cache with segments := s.cache.segments.set s.cache.ra_segment ({ s.cache.segments.getD s.cache.ra_segment default with ra_addr := (hdd_readahead_loop ((s.cache.segments.getD s.cache.ra_segment default).host_addr + s.cache.segment_size - (s.cache.segments.getD s.cache.ra_segment default).ra_addr) s (s.cache.segments.getD s.cache.ra_segment default).ra_addr (((u64sub tsc s.cache.ra_start_time : Nat) : ℚ) / cp * 1000000) 0).2.2 }) } } := by
  have hU : (s.cache.segments.getD s.cache.ra_segment default).host_addr + s.cache.segment_size
      < U32 := by
    simp only [U32]
    omega
  have hu : u32sub ((s.cache.segments.getD s.cache.ra_segment default).host_addr
        + s.cache.segment_size) (s.cache.segments.getD s.cache.ra_segment default).ra_addr
      = (s.cache.segments.getD s.cache.ra_segment default).host_addr + s.cache.segment_size
        - (s.cache.segments.getD s.cache.ra_segment default).ra_addr := u32sub_eq _ _ hle hU
  have htn : (i32ofU32 (u32sub ((s.cache.segments.getD s.cache.ra_segment default).host_addr
        + s.cache.segment_size) (s.cache.segments.getD s.cache.ra_segment default).ra_addr)).toNat
      = (s.cache.segments.getD s.cache.ra_segment default).host_addr + s.cache.segment_size
        - (s.cache.segments.getD s.cache.ra_segment default).ra_addr := by
    rw [hu]
    exact i32ofU32_toNat_of_lt _ (by omega)
  rw [hdd_readahead_update, if_pos hra]
  simp only [htn]
  rw [if_neg ?hcond]
  case hcond =>
    have h1 := hdd_readahead_loop_ra_le
      ((s.cache.segments.getD s.cache.ra_segment default).host_addr + s.cache.segment_size
        - (s.cache.segments.getD s.cache.ra_segment default).ra_addr)
      s (s.cache.segments.getD s.cache.ra_segment default).ra_addr
      (((u64sub tsc s.cache.ra_start_time : Nat) : ℚ) / cp * 1000000) 0
    omega
  rw [hdd_readahead_loop_cache]

theorem opRead_ne_opSeek : HddOp.opRead ≠ HddOp.opSeek := by
  intro h
  exact HddOp.noConfusion h

theorem opWrite_ne_opSeek : HddOp.opWrite ≠ HddOp.opSeek := by
  intro h
  exact HddOp.noConfusion h

/-! ### Claim theorems -/

/-- C9: with a nonzero speed preset but an empty zone table, the
    (permissive-build) `hdd_seek_get_time` returns the fixed fallback
    latency of 1000 us, a nonnegative value, and leaves the drive —
    mechanical state and caches — completely unchanged. -/
theorem hdd_seek_zero_zones_fallback (s : HardDisk) (dst : Nat) (op : HddOp) (c : Bool) (m : ℚ)
    (hp : ¬ s.speed_preset = 0) (hz : s.zones = []) :
    (hdd_seek_get_time s dst op c m).1 = 1000 ∧
    0 ≤ (hdd_seek_get_time s dst op c m).1 ∧
    (hdd_seek_get_time s dst op c m).2 = s := by
  rw [hdd_seek_get_time, if_neg hp, if_pos hz]
  norm_num

theorem hdd_seek_zero_zones_fallback_witness :
    (hdd_seek_get_time sC9 7 HddOp.opRead true 0).1 = 1000 ∧
    0 ≤ (hdd_seek_get_time sC9 7 HddOp.opRead true 0).1 ∧
    (hdd_seek_get_time sC9 7 HddOp.opRead true 0).2 = sC9 :=
  hdd_seek_zero_zones_fallback sC9 7 HddOp.opRead true 0
    (by simp [sC9, sBase]) (by simp [sC9])

/-- C10: a call to `hdd_seek_get_time` can change nothing but the three
    mechanical-position fields: every other field of the drive (zone
    table, caches, geometry, timing parameters) is returned unchanged;
    the mechanical fields either stay as they were or move to the
    destination, and when the access is rejected (`max_seek_time`
    nonzero and exceeded) the whole state is unchanged. -/
theorem hdd_seek_frame_effect (s : HardDisk) (dst : Nat) (op : HddOp) (c : Bool) (m : ℚ) :
    (hdd_seek_get_time s dst op c m).2.speed_preset = s.speed_preset ∧
    (hdd_seek_get_time s dst op c m).2.zones = s.zones ∧
    (hdd_seek_get_time s dst op c m).2.phy_heads = s.phy_heads ∧
    (hdd_seek_get_time s dst op c m).2.phy_cyl = s.phy_cyl ∧
    (hdd_seek_get_time s dst op c m).2.rpm = s.rpm ∧
    (hdd_seek_get_time s dst op c m).2.avg_rotation_lat_usec = s.avg_rotation_lat_usec ∧
    (hdd_seek_get_time s dst op c m).2.full_stroke_usec = s.full_stroke_usec ∧
    (hdd_seek_get_time s dst op c m).2.head_switch_usec = s.head_switch_usec ∧
    (hdd_seek_get_time s dst op c m).2.cyl_switch_usec = s.cyl_switch_usec ∧
    (hdd_seek_get_time s dst op c m).2.cache = s.cache ∧
    (hdd_seek_get_time s dst op c m).2.tracks = s.tracks ∧
    (hdd_seek_get_time s dst op c m).2.hpc = s.hpc ∧
    (hdd_seek_get_time s dst op c m).2.spt = s.spt ∧
    ((hdd_seek_get_time s dst op c m).2 = s ∨
      ((hdd_seek_get_time s dst op c m).2.cur_addr = dst ∧
       (hdd_seek_get_time s dst op c m).2.cur_track = hdd_seek_dst_track s dst ∧
       (hdd_seek_get_time s dst op c m).2.cur_cylinder = hdd_seek_dst_cylinder s dst)) ∧
    (m ≠ 0 → ¬ hdd_seek_time s dst op c ≤ m → (hdd_seek_get_time s dst op c m).2 = s) := by
  refine ⟨hdd_seek_preset s dst op c m, hdd_seek_zones s dst op c m,
    hdd_seek_phy_heads s dst op c m, hdd_seek_phy_cyl s dst op c m,
    hdd_seek_rpm s dst op c m, hdd_seek_avg_rot s dst op c m,
    hdd_seek_full_stroke s dst op c m, hdd_seek_head_switch s dst op c m,
    hdd_seek_cyl_switch s dst op c m, hdd_seek_cache s dst op c m,
    hdd_seek_tracks s dst op c m, hdd_seek_hpc s dst op c m,
    hdd_seek_spt s dst op c m, ?_, ?_⟩
  · rcases hdd_seek_snd_cases s dst op c m with h | h
    · exact Or.inl h
    · refine Or.inr ⟨?_, ?_, ?_⟩ <;> rw [h]
  · intro h1 h2
    exact hdd_seek_reject s dst op c m h1 h2

theorem hdd_seek_frame_effect_witness :
    (hdd_seek_get_time sBase 5 HddOp.opRead true 1).2 = sBase := by
  have h := hdd_seek_frame_effect sBase 5 HddOp.opRead true 1
  refine h.2.2.2.2.2.2.2.2.2.2.2.2.2.2 (by norm_num) ?_
  have hst : hdd_seek_time sBase 5 HddOp.opRead true = 111 := by
    norm_num [hdd_seek_time, hdd_seek_dst_track, hdd_seek_dst_cylinder, hdd_zone_find,
      sBase, zoneA, u32sub, U32, opRead_ne_opSeek]
  rw [hst]
  norm_num

/-- The continuous-and-sequential branch of the seek-time computation,
    written out as the code's 2x2 table. -/
theorem hdd_seek_time_continuous (s : HardDisk) (dst : Nat) (op : HddOp)
    (hseq : dst = s.cur_addr + 1) :
    hdd_seek_time s dst op true =
      if hdd_seek_dst_track s dst = s.cur_track then
        (hdd_zone_find s.zones dst).sector_time_usec
      else if ((s.cur_cylinder : Int) - (hdd_seek_dst_cylinder s dst : Int)).natAbs ≠ 0 then
        s.cyl_switch_usec
      else s.head_switch_usec := by
  simp only [hdd_seek_time]
  rw [if_pos]
  subst hseq
  simp

/-- C2 counterexample: a continuous, sequential access whose destination
    lies on a different track and a different cylinder is charged the
    cylinder-switch time (7000 us on this drive), not the zone's sector
    rotation time (10 us) as the claim's table predicts. -/
theorem hdd_seek_continuous_table_counterexample :
    (hdd_seek_get_time sC2 2 HddOp.opRead true 0).1 = 7000 ∧
    sC2.cur_addr + 1 = 2 ∧
    hdd_seek_dst_track sC2 2 ≠ sC2.cur_track ∧
    hdd_seek_dst_cylinder sC2 2 ≠ sC2.cur_cylinder ∧
    (hdd_zone_find sC2.zones 2).sector_time_usec = 10 ∧
    (7000 : ℚ) ≠ 10 := by
  have ht : hdd_seek_dst_track sC2 2 = 1 := by
    norm_num [hdd_seek_dst_track, hdd_zone_find, sC2, sBase, zoneB, u32sub, U32]
  have hc : hdd_seek_dst_cylinder sC2 2 = 1 := by
    simp only [hdd_seek_dst_cylinder]
    rw [ht]
    norm_num [sC2, sBase]
  refine ⟨?_, by norm_num [sC2, sBase], by rw [ht]; norm_num [sC2, sBase],
    by rw [hc]; norm_num [sC2, sBase], by norm_num [hdd_zone_find, sC2, sBase, zoneB],
    by norm_num⟩
  rw [hdd_seek_fst, if_neg (by norm_num [sC2, sBase]), if_neg (by simp [sC2, sBase]),
    hdd_seek_time_continuous sC2 2 HddOp.opRead (by norm_num [sC2, sBase]),
    if_neg (by rw [ht]; norm_num [sC2, sBase]), if_pos (by rw [hc]; norm_num [sC2, sBase])]
  norm_num [sC2, sBase]

/-- C2 amended: for a configured drive with at least one zone and a
    continuous sequential destination, the cost follows the code's
    table: same destination track → the zone's sector rotation time
    (whether or not the cylinder changed); track changed but cylinder
    unchanged → head-switch time; track and cylinder both changed →
    cylinder-switch time. -/
theorem hdd_seek_continuous_table (s : HardDisk) (dst : Nat) (op : HddOp)
    (hp : ¬ s.speed_preset = 0) (hz : ¬ s.zones = []) (hseq : dst = s.cur_addr + 1) :
    (hdd_seek_dst_track s dst = s.cur_track →
      (hdd_seek_get_time s dst op true 0).1 = (hdd_zone_find s.zones dst).sector_time_usec) ∧
    (hdd_seek_dst_track s dst ≠ s.cur_track → hdd_seek_dst_cylinder s dst = s.cur_cylinder →
      (hdd_seek_get_time s dst op true 0).1 = s.head_switch_usec) ∧
    (hdd_seek_dst_track s dst ≠ s.cur_track → hdd_seek_dst_cylinder s dst ≠ s.cur_cylinder →
      (hdd_seek_get_time s dst op true 0).1 = s.cyl_switch_usec) := by
  have hfst : (hdd_seek_get_time s dst op true 0).1 = hdd_seek_time s dst op true := by
    rw [hdd_seek_fst, if_neg hp, if_neg hz]
  rw [hfst, hdd_seek_time_continuous s dst op hseq]
  refine ⟨fun ht => by rw [if_pos ht], fun ht hcyl => ?_, fun ht hcyl => ?_⟩
  · rw [if_neg ht, if_neg]
    simp only [ne_eq, Int.natAbs_eq_zero, sub_eq_zero, not_not]
    exact_mod_cast hcyl.symm
  · rw [if_neg ht, if_pos]
    simp only [ne_eq, Int.natAbs_eq_zero, sub_eq_zero]
    intro h'
    exact hcyl (by exact_mod_cast h'.symm)

theorem hdd_seek_continuous_table_witness :
    (hdd_seek_get_time sC2 2 HddOp.opWrite true 0).1 = sC2.cyl_switch_usec := by
  have ht : hdd_seek_dst_track sC2 2 = 1 := by
    norm_num [hdd_seek_dst_track, hdd_zone_find, sC2, sBase, zoneB, u32sub, U32]
  have hc : hdd_seek_dst_cylinder sC2 2 = 1 := by
    simp only [hdd_seek_dst_cylinder]
    rw [ht]
    norm_num [sC2, sBase]
  exact (hdd_seek_continuous_table sC2 2 HddOp.opWrite (by norm_num [sC2, sBase])
      (by simp [sC2, sBase]) (by norm_num [sC2, sBase])).2.2
    (by rw [ht]; norm_num [sC2, sBase]) (by rw [hc]; norm_num [sC2, sBase])

/-- C3 counterexample: when the computed cost is exactly 1 us, calling
    `hdd_seek_get_time` with `max_seek_time = cost - 1 = 0` COMMITS the
    access (a zero budget disables admission control) instead of
    rejecting it: the mechanical position moves to the destination. -/
theorem hdd_seek_budget_boundary_counterexample :
    (hdd_seek_get_time sC3 1 HddOp.opRead true 0).1 = 1 ∧
    (hdd_seek_get_time sC3 1 HddOp.opRead true
        ((hdd_seek_get_time sC3 1 HddOp.opRead true 0).1 - 1)).2.cur_addr = 1 ∧
    sC3.cur_addr = 0 := by
  have ht : hdd_seek_dst_track sC3 1 = 0 := by
    norm_num [hdd_seek_dst_track, hdd_zone_find, sC3, sBase, zoneC, u32sub, U32]
  have hst : hdd_seek_time sC3 1 HddOp.opRead true = 1 := by
    rw [hdd_seek_time_continuous sC3 1 HddOp.opRead (by norm_num [sC3, sBase]),
      if_pos (by rw [ht]; norm_num [sC3, sBase])]
    norm_num [hdd_zone_find, sC3, sBase, zoneC]
  have hfst : (hdd_seek_get_time sC3 1 HddOp.opRead true 0).1 = 1 := by
    rw [hdd_seek_fst, if_neg (by norm_num [sC3, sBase]), if_neg (by simp [sC3, sBase]), hst]
  refine ⟨hfst, ?_, by norm_num [sC3, sBase]⟩
  rw [hfst]
  norm_num
  rw [hdd_seek_commit sC3 1 HddOp.opRead true 0 (by norm_num [sC3, sBase])
    (by simp [sC3, sBase]) (Or.inl rfl)]

/-- C3 amended: for a configured drive with at least one zone, provided
    the computed cost is not exactly 1 us (so that `cost - 1` is a
    nonzero budget), a call with `max_seek_time = cost - 1` leaves the
    state unchanged, while a call with the exact cost, or with 0,
    commits the mechanical position to the destination; the computed
    cost is returned whatever the budget. -/
theorem hdd_seek_budget_boundary (s : HardDisk) (dst : Nat) (op : HddOp) (c : Bool)
    (hp : ¬ s.speed_preset = 0) (hz : ¬ s.zones = [])
    (h1 : hdd_seek_time s dst op c ≠ 1) :
    (hdd_seek_get_time s dst op c (hdd_seek_time s dst op c - 1)).2 = s ∧
    (hdd_seek_get_time s dst op c (hdd_seek_time s dst op c)).2 =
      { s with cur_addr := dst, cur_track := hdd_seek_dst_track s dst,
               cur_cylinder := hdd_seek_dst_cylinder s dst } ∧
    (hdd_seek_get_time s dst op c 0).2 =
      { s with cur_addr := dst, cur_track := hdd_seek_dst_track s dst,
               cur_cylinder := hdd_seek_dst_cylinder s dst } ∧
    (∀ m : ℚ, (hdd_seek_get_time s dst op c m).1 = hdd_seek_time s dst op c) := by
  refine ⟨?_, hdd_seek_commit _ _ _ _ _ hp hz (Or.inr le_rfl),
    hdd_seek_commit _ _ _ _ _ hp hz (Or.inl rfl), fun m => ?_⟩
  · apply hdd_seek_reject
    · intro h
      apply h1
      linarith
    · intro h
      linarith
  · rw [hdd_seek_fst, if_neg hp, if_neg hz]

theorem hdd_seek_time_sBase5 : hdd_seek_time sBase 5 HddOp.opRead true = 111 := by
  norm_num [hdd_seek_time, hdd_seek_dst_track, hdd_seek_dst_cylinder, hdd_zone_find,
    sBase, zoneA, u32sub, U32, opRead_ne_opSeek]

theorem hdd_seek_budget_boundary_witness :
    (hdd_seek_get_time sBase 5 HddOp.opRead true
      (hdd_seek_time sBase 5 HddOp.opRead true - 1)).2 = sBase :=
  (hdd_seek_budget_boundary sBase 5 HddOp.opRead true (by norm_num [sBase])
    (by simp [sBase]) (by rw [hdd_seek_time_sBase5]; norm_num)).1

theorem hdd_cache_scan_go_hit_iff (size addr : Nat) (segs : List HddCacheSeg) (i a al : Nat) :
    (hdd_cache_scan_go size addr segs i a al).2 = true ↔
      ∃ g ∈ segs, g.valid = true ∧ g.lba_addr ≤ addr ∧ addr ≤ g.lba_addr + size := by
  induction segs generalizing i a al with
  | nil => simp [hdd_cache_scan_go]
  | cons seg rest ih =>
    rw [hdd_cache_scan_go]
    by_cases hv : seg.valid = true
    · rw [if_neg (by simp [hv])]
      by_cases hcov : seg.lba_addr ≤ addr ∧ addr ≤ seg.lba_addr + size
      · rw [if_pos hcov]
        constructor
        · intro _
          exact ⟨seg, List.mem_cons_self _ _, hv, hcov.1, hcov.2⟩
        · intro _
          rfl
      · rw [if_neg hcov]
        have hskip : (∃ g ∈ rest, g.valid = true ∧ g.lba_addr ≤ addr ∧ addr ≤ g.lba_addr + size)
            ↔ ∃ g ∈ seg :: rest, g.valid = true ∧ g.lba_addr ≤ addr ∧ addr ≤ g.lba_addr + size := by
          constructor
          · rintro ⟨g, hg, hPg⟩
            exact ⟨g, List.mem_cons_of_mem _ hg, hPg⟩
          · rintro ⟨g, hg, hPg⟩
            rcases List.mem_cons.mp hg with rfl | hg2
            · exact absurd ⟨hPg.2.1, hPg.2.2⟩ hcov
            · exact ⟨g, hg2, hPg⟩
        split
        · rw [ih]
          exact hskip
        · rw [ih]
          exact hskip
    · rw [if_pos (by simp [Bool.not_eq_true] at hv; simp [hv])]
      rw [ih]
      constructor
      · rintro ⟨g, hg, hPg⟩
        exact ⟨g, List.mem_cons_of_mem _ hg, hPg⟩
      · rintro ⟨g, hg, hPg⟩
        rcases List.mem_cons.mp hg with rfl | hg2
        · exact absurd hPg.1 hv
        · exact ⟨g, hg2, hPg⟩

/-- C5 amended: the segment scan of `hdd_timing_read` classifies a
    request as a hit exactly when some valid segment's CLOSED window
    `[lba_addr, lba_addr + segment_size]` contains the address; the
    boundary address `lba_addr + segment_size` therefore DOES hit,
    contrary to the claim's half-open window. -/
theorem hdd_cache_scan_hit_iff (segs : List HddCacheSeg) (size addr : Nat) :
    (hdd_cache_scan segs size addr).2 = true ↔
      ∃ g ∈ segs, g.valid = true ∧ g.lba_addr ≤ addr ∧ addr ≤ g.lba_addr + size := by
  cases segs with
  | nil => simp [hdd_cache_scan]
  | cons s0 rest =>
    rw [hdd_cache_scan]
    exact hdd_cache_scan_go_hit_iff size addr (s0 :: rest) 0 0 s0.lru

/-- C5 counterexample: on a drive whose single valid segment caches
    window start 0 with segment size 4, a read at address 4 — exactly
    `lba_addr + segment_size` — is served as a HIT: it costs 0, the
    segment stays valid with its window slid to start 1 and
    `host_addr = 4`.  The claimed half-open window `[0, 4)` would have
    classified it a miss (evicting and restarting the window at 4). -/
theorem hdd_read_hit_window_counterexample :
    segV.lba_addr + sC5.cache.segment_size = 4 ∧
    (hdd_timing_read 0 1 sC5 4 1).1 = 0 ∧
    ((hdd_timing_read 0 1 sC5 4 1).2.cache.segments.map fun g =>
      (g.valid, g.lba_addr, g.host_addr)) = [(true, 1, 4)] := by
  refine ⟨by norm_num [segV, sC5, cacheEmpty], ?_, ?_⟩ <;>
    norm_num [hdd_timing_read, hdd_readahead_update, hdd_writecache_update,
      hdd_timing_read_core, hdd_writecache_flush, hdd_writecache_flush_loop,
      hdd_cache_scan, hdd_cache_scan_go, hdd_charge_hit, sC5, sBase, cacheEmpty, segV,
      List.getD, List.set]

theorem hdd_readahead_update_off (tsc : Nat) (cp : ℚ) (s : HardDisk)
    (h : s.cache.ra_ongoing = false) : hdd_readahead_update tsc cp s = s := by
  rw [hdd_readahead_update, if_neg (by simp [h])]

theorem hdd_writecache_update_off (tsc : Nat) (cp : ℚ) (s : HardDisk)
    (h : s.cache.write_pending = 0) : hdd_writecache_update tsc cp s = s := by
  rw [hdd_writecache_update, if_neg (by simp [h])]

/-- C4 counterexample: writing 4 sectors into an empty write cache of
    capacity 2 leaves `write_pending = 4 > 2 = write_size` when
    `hdd_timing_write` returns: the capacity flush advances `write_addr`
    by the excess (10 → 12) but never decrements `write_pending`. -/
theorem hdd_write_pending_exceeds_counterexample :
    sBase.cache.write_pending = 0 ∧ sBase.cache.write_size = 2 ∧
    (hdd_timing_write 0 1 sBase 10 4).2.cache.write_pending = 4 ∧
    (hdd_timing_write 0 1 sBase 10 4).2.cache.write_size = 2 ∧
    (hdd_timing_write 0 1 sBase 10 4).2.cache.write_addr = 12 ∧
    ¬ (hdd_timing_write 0 1 sBase 10 4).2.cache.write_pending ≤
        (hdd_timing_write 0 1 sBase 10 4).2.cache.write_size := by
  refine ⟨by norm_num [sBase, cacheEmpty], by norm_num [sBase, cacheEmpty], ?_⟩
  norm_num [hdd_timing_write, hdd_timing_write_core, hdd_readahead_update,
    hdd_writecache_update, hdd_writecache_flush, hdd_writecache_flush_loop,
    hdd_seek_get_time, sBase, zoneA, cacheEmpty]

/-- C4 amended: starting from an empty write cache, `hdd_timing_write`
    of `len` sectors returns with `write_pending = len` — which exceeds
    `write_size` whenever `len` does — and with `write_addr` advanced
    past the flushed excess (`addr + (len - write_size)`); the capacity
    flush advances the address only and never decrements the count. -/
theorem hdd_write_pending_after (tsc : Nat) (cp : ℚ) (s : HardDisk) (addr len : Nat)
    (hp : ¬ s.speed_preset = 0) (h0 : s.cache.write_pending = 0)
    (hra : s.cache.ra_ongoing = false) :
    (hdd_timing_write tsc cp s addr len).2.cache.write_pending = len ∧
    (hdd_timing_write tsc cp s addr len).2.cache.write_size = s.cache.write_size ∧
    (hdd_timing_write tsc cp s addr len).2.cache.write_addr = addr + (len - s.cache.write_size) ∧
    (s.cache.write_size < len →
      ¬ (hdd_timing_write tsc cp s addr len).2.cache.write_pending ≤
          (hdd_timing_write tsc cp s addr len).2.cache.write_size) := by
  have hmain : (hdd_timing_write tsc cp s addr len).2.cache.write_pending = len ∧
      (hdd_timing_write tsc cp s addr len).2.cache.write_size = s.cache.write_size ∧
      (hdd_timing_write tsc cp s addr len).2.cache.write_addr
        = addr + (len - s.cache.write_size) := by
    rw [hdd_timing_write, if_neg hp, hdd_readahead_update_off _ _ _ hra,
      hdd_writecache_update_off _ _ _ h0]
    simp only [hdd_timing_write_core, h0, ne_eq, not_true_eq_false, false_and, if_false,
      ite_false, if_true, zero_add]
    by_cases hc : s.cache.write_size < len
    · rw [if_pos hc]
      refine ⟨?_, ?_, ?_⟩
      · rw [hdd_flush_loop_cache]
      · rw [hdd_flush_loop_cache]
      · rw [hdd_flush_loop_wa]
    · rw [if_neg hc]
      refine ⟨rfl, rfl, ?_⟩
      show addr = addr + (len - s.cache.write_size)
      omega
  refine ⟨hmain.1, hmain.2.1, hmain.2.2, fun hlt => ?_⟩
  rw [hmain.1, hmain.2.1]
  omega

theorem hdd_write_pending_after_witness :
    (hdd_timing_write 0 1 sBase 10 1).2.cache.write_pending = 1 ∧
    (hdd_timing_write 0 1 sBase 10 1).2.cache.write_size = sBase.cache.write_size ∧
    (hdd_timing_write 0 1 sBase 10 1).2.cache.write_addr
      = 10 + (1 - sBase.cache.write_size) ∧
    (sBase.cache.write_size < 1 →
      ¬ (hdd_timing_write 0 1 sBase 10 1).2.cache.write_pending ≤
          (hdd_timing_write 0 1 sBase 10 1).2.cache.write_size) :=
  hdd_write_pending_after 0 1 sBase 10 1 (by norm_num [sBase])
    (by norm_num [sBase, cacheEmpty]) (by norm_num [sBase, cacheEmpty])

/-- `hdd_timing_write` on an empty write cache (with room for the
    request): pure buffering, zero cost. -/
theorem hdd_timing_write_empty (tsc : Nat) (cp : ℚ) (s : HardDisk) (addr len : Nat)
    (hp : ¬ s.speed_preset = 0) (h0 : s.cache.write_pending = 0)
    (hra : s.cache.ra_ongoing = false) (hsz : ¬ s.cache.write_size < len) :
    hdd_timing_write tsc cp s addr len =
      (0, { s with cache := { s.cache with
            ra_ongoing := false
            write_addr := addr
            write_pending := len
            write_start_time := tsc % U64 } }) := by
  rw [hdd_timing_write, if_neg hp, hdd_readahead_update_off _ _ _ hra,
    hdd_writecache_update_off _ _ _ h0]
  obtain ⟨pre, zs, ph, pc, rp, ar, fs, hsw, csw, ca, ct, cc, cache, tr, hc, sp⟩ := s
  obtain ⟨sz, segs, rao, ras, rat, wa, wp, ws, wst⟩ := cache
  dsimp only at h0 hsz
  subst h0
  simp [hdd_timing_write_core, hsz, u32OfRat_zero]

/-- The post-catch-up body of `hdd_timing_write` for a contiguous
    request that fits the cache: the run is extended, nothing is
    flushed, cost 0. -/
theorem hdd_write_core_contig (tsc : Nat) (cp : ℚ) (s : HardDisk) (addr len : Nat)
    (hpend : ¬ s.cache.write_pending = 0)
    (haddr : addr = s.cache.write_addr + s.cache.write_pending)
    (hsz : ¬ s.cache.write_size < s.cache.write_pending + len) :
    (hdd_timing_write_core tsc cp s addr len).1 = 0 ∧
    (hdd_timing_write_core tsc cp s addr len).2.cache.write_pending
      = s.cache.write_pending + len ∧
    (hdd_timing_write_core tsc cp s addr len).2.cache.write_addr = s.cache.write_addr := by
  obtain ⟨pre, zs, ph, pc, rp, ar, fs, hsw, csw, ca, ct, cc, cache, tr, hc, sp⟩ := s
  obtain ⟨sz, segs, rao, ras, rat, wa, wp, ws, wst⟩ := cache
  dsimp only at hpend haddr hsz ⊢
  subst haddr
  simp [hdd_timing_write_core, hpend, hsz, u32OfRat_zero]

/-- The post-catch-up body of `hdd_timing_write` for a non-contiguous
    request: the whole pending run is flushed at a strictly positive
    cost and a fresh run of `len` sectors starts at the new address. -/
theorem hdd_write_core_noncontig (tsc : Nat) (cp : ℚ) (s : HardDisk) (addr len : Nat)
    (hg : GoodTiming s) (hpend : ¬ s.cache.write_pending = 0)
    (haddr : ¬ addr = s.cache.write_addr + s.cache.write_pending)
    (hsz : ¬ s.cache.write_size < len) :
    0 < (hdd_timing_write_core tsc cp s addr len).1 ∧
    (hdd_timing_write_core tsc cp s addr len).2.cache.write_pending = len ∧
    (hdd_timing_write_core tsc cp s addr len).2.cache.write_addr = addr := by
  obtain ⟨pre, zs, ph, pc, rp, ar, fs, hsw, csw, ca, ct, cc, cache, tr, hc, sp⟩ := s
  obtain ⟨sz, segs, rao, ras, rat, wa, wp, ws, wst⟩ := cache
  dsimp only at hpend haddr hsz ⊢
  refine ⟨?_, ?_, ?_⟩ <;>
    simp [hdd_timing_write_core, hdd_writecache_flush, hdd_flush_loop_cache, hpend, haddr,
      hsz, u32OfRat_zero]
  exact hdd_flush_loop_fst_pos wp _ wa hpend hg

/-- With a pending run and zero elapsed clock time, `hdd_timing_write`
    reduces to its core acting on the state after the single committed
    probing seek of the catch-up step. -/
theorem hdd_timing_write_busy_zero (tsc : Nat) (cp : ℚ) (s : HardDisk) (addr len : Nat)
    (h1 : ¬ s.speed_preset = 0) (h2 : s.cache.ra_ongoing = false)
    (h3 : ¬ s.cache.write_pending = 0) (h4 : s.cache.write_start_time = tsc % U64)
    (h5 : GoodTiming s) :
    hdd_timing_write tsc cp s addr len =
      hdd_timing_write_core tsc cp
        (hdd_seek_get_time s s.cache.write_addr HddOp.opWrite true 0).2 addr len := by
  rw [hdd_timing_write, if_neg h1, hdd_readahead_update_off _ _ _ h2,
    hdd_writecache_update_zero tsc cp s h4 h5, if_neg h3]

/-- C6: starting from an empty write cache with no clock time elapsing
    between the calls, a 1-sector write at `a` buffers for free; a
    second write at `a + 1` extends the run to 2 pending sectors at zero
    cost without flushing; a second write at `a + 5` instead flushes the
    pending run (at a strictly positive per-sector seek cost) and
    starts a fresh run at `a + 5`. -/
theorem hdd_write_coalescing (tsc : Nat) (cp : ℚ) (s : HardDisk) (a : Nat)
    (hp : ¬ s.speed_preset = 0) (hg : GoodTiming s)
    (h0 : s.cache.write_pending = 0) (hra : s.cache.ra_ongoing = false)
    (hsz : 2 ≤ s.cache.write_size) :
    (hdd_timing_write tsc cp s a 1).1 = 0 ∧
    (hdd_timing_write tsc cp (hdd_timing_write tsc cp s a 1).2 (a + 1) 1).1 = 0 ∧
    (hdd_timing_write tsc cp (hdd_timing_write tsc cp s a 1).2 (a + 1) 1).2.cache.write_pending = 2 ∧
    (hdd_timing_write tsc cp (hdd_timing_write tsc cp s a 1).2 (a + 1) 1).2.cache.write_addr = a ∧
    0 < (hdd_timing_write tsc cp (hdd_timing_write tsc cp s a 1).2 (a + 5) 1).1 ∧
    (hdd_timing_write tsc cp (hdd_timing_write tsc cp s a 1).2 (a + 5) 1).2.cache.write_pending = 1 ∧
    (hdd_timing_write tsc cp (hdd_timing_write tsc cp s a 1).2 (a + 5) 1).2.cache.write_addr = a + 5 := by
  have hw1 := hdd_timing_write_empty tsc cp s a 1 hp h0 hra (by omega)
  rw [hw1]
  refine ⟨rfl, ?_⟩
  have hb := hdd_timing_write_busy_zero tsc cp
    ({ s with cache := { s.cache with
        ra_ongoing := false
        write_addr := a
        write_pending := 1
        write_start_time := tsc % U64 } })
  have hbu : ∀ addr len, hdd_timing_write tsc cp
      ({ s with cache := { s.cache with
          ra_ongoing := false
          write_addr := a
          write_pending := 1
          write_start_time := tsc % U64 } }) addr len =
      hdd_timing_write_core tsc cp
        (hdd_seek_get_time
          ({ s with cache := { s.cache with
              ra_ongoing := false
              write_addr := a
              write_pending := 1
              write_start_time := tsc % U64 } }) a HddOp.opWrite true 0).2 addr len := by
    intro addr len
    exact hb addr len hp rfl (by exact Nat.one_ne_zero) rfl hg
  have hg2 : GoodTiming (hdd_seek_get_time
      ({ s with cache := { s.cache with
          ra_ongoing := false
          write_addr := a
          write_pending := 1
          write_start_time := tsc % U64 } }) a HddOp.opWrite true 0).2 :=
    hdd_seek_GoodTiming _ _ _ _ _ hg
  have hc1 := hdd_write_core_contig tsc cp
    (hdd_seek_get_time
      ({ s with cache := { s.cache with
          ra_ongoing := false
          write_addr := a
          write_pending := 1
          write_start_time := tsc % U64 } }) a HddOp.opWrite true 0).2 (a + 1) 1
    (by rw [hdd_seek_cache]; exact Nat.one_ne_zero)
    (by rw [hdd_seek_cache])
    (by rw [hdd_seek_cache]; show ¬ s.cache.write_size < 1 + 1; omega)
  have hc2 := hdd_write_core_noncontig tsc cp
    (hdd_seek_get_time
      ({ s with cache := { s.cache with
          ra_ongoing := false
          write_addr := a
          write_pending := 1
          write_start_time := tsc % U64 } }) a HddOp.opWrite true 0).2 (a + 5) 1
    hg2
    (by rw [hdd_seek_cache]; exact Nat.one_ne_zero)
    (by rw [hdd_seek_cache]; show ¬ a + 5 = a + 1; omega)
    (by rw [hdd_seek_cache]; show ¬ s.cache.write_size < 1; omega)
  rw [hbu (a + 1) 1, hbu (a + 5) 1]
  refine ⟨hc1.1, ?_, ?_, hc2.1, hc2.2.1, ?_⟩
  · rw [hc1.2.1, hdd_seek_cache]
  · rw [hc1.2.2, hdd_seek_cache]
  · rw [hc2.2.2]

theorem sBase_GoodTiming : GoodTiming sBase := by
  refine ⟨by norm_num [sBase], by norm_num [sBase], by norm_num [sBase],
    by norm_num [sBase], ?_⟩
  intro z hz
  simp [sBase] at hz
  subst hz
  norm_num [zoneA]

theorem hdd_write_coalescing_witness :
    (hdd_timing_write 0 1 sBase 40 1).1 = 0 ∧
    (hdd_timing_write 0 1 (hdd_timing_write 0 1 sBase 40 1).2 (40 + 1) 1).1 = 0 ∧
    (hdd_timing_write 0 1 (hdd_timing_write 0 1 sBase 40 1).2 (40 + 1) 1).2.cache.write_pending = 2 ∧
    (hdd_timing_write 0 1 (hdd_timing_write 0 1 sBase 40 1).2 (40 + 1) 1).2.cache.write_addr = 40 ∧
    0 < (hdd_timing_write 0 1 (hdd_timing_write 0 1 sBase 40 1).2 (40 + 5) 1).1 ∧
    (hdd_timing_write 0 1 (hdd_timing_write 0 1 sBase 40 1).2 (40 + 5) 1).2.cache.write_pending = 1 ∧
    (hdd_timing_write 0 1 (hdd_timing_write 0 1 sBase 40 1).2 (40 + 5) 1).2.cache.write_addr = 40 + 5 :=
  hdd_write_coalescing 0 1 sBase 40 (by norm_num [sBase]) sBase_GoodTiming
    (by norm_num [sBase, cacheEmpty]) (by norm_num [sBase, cacheEmpty])
    (by norm_num [sBase, cacheEmpty])

theorem segs_getD_set_self (l : List HddCacheSeg) (i : Nat) (v d : HddCacheSeg)
    (h : i < l.length) : (l.set i v).getD i d = v := by
  simp [List.getD, List.getElem?_set_self, h]

theorem segs_getD_set_ne (l : List HddCacheSeg) (i j : Nat) (v d : HddCacheSeg)
    (hne : j ≠ i) : (l.set i v).getD j d = l.getD j d := by
  simp [List.getD, List.getElem?_set_ne (by omega : i ≠ j)]

theorem segs_getD_map (l : List HddCacheSeg) (f : HddCacheSeg → HddCacheSeg) (i : Nat)
    (d : HddCacheSeg) (h : i < l.length) : (l.map f).getD i d = f (l.getD i d) := by
  simp [List.getD, List.getElem?_map, List.getElem?_eq_getElem h]

/-- The scan over a cache whose segments are all invalid selects the
    last segment as eviction candidate and reports a miss. -/
theorem hdd_cache_scan_go_all_invalid (size addr : Nat) (segs : List HddCacheSeg)
    (h : ∀ g ∈ segs, g.valid = false) :
    ∀ i a al, segs ≠ [] → hdd_cache_scan_go size addr segs i a al = (i + segs.length - 1, false) := by
  induction segs with
  | nil => intro i a al hne; exact absurd rfl hne
  | cons seg rest ih =>
    intro i a al _
    rw [hdd_cache_scan_go, if_pos (by simp [h seg (List.mem_cons_self _ _)])]
    cases rest with
    | nil => simp [hdd_cache_scan_go]
    | cons r2 rest2 =>
      rw [ih (fun g hg => h g (List.mem_cons_of_mem _ hg)) (i + 1) i seg.lru (by simp)]
      simp only [List.length_cons]
      congr 1
      omega

theorem hdd_cache_scan_all_invalid (segs : List HddCacheSeg) (size addr : Nat)
    (h : ∀ g ∈ segs, g.valid = false) (hne : segs ≠ []) :
    hdd_cache_scan segs size addr = (segs.length - 1, false) := by
  cases segs with
  | nil => exact absurd rfl hne
  | cons s0 rest =>
    rw [hdd_cache_scan, hdd_cache_scan_go_all_invalid size addr _ h 0 0 s0.lru (by simp)]
    simp

/-- The scan stops at the first valid covering segment: if every
    earlier segment is invalid and segment `k` is valid and covers the
    address, the scan reports a hit on `k`. -/
theorem hdd_cache_scan_go_first_hit (size addr : Nat) (segs : List HddCacheSeg) (k : Nat)
    (hk : k < segs.length)
    (hpre : ∀ j, j < k → (segs.getD j default).valid = false)
    (hv : (segs.getD k default).valid = true)
    (h1 : (segs.getD k default).lba_addr ≤ addr)
    (h2 : addr ≤ (segs.getD k default).lba_addr + size) :
    ∀ i a al, hdd_cache_scan_go size addr segs i a al = (i + k, true) := by
  induction segs generalizing k with
  | nil => simp at hk
  | cons seg rest ih =>
    intro i a al
    cases k with
    | zero =>
      have hv0 : seg.valid = true := by simpa [List.getD] using hv
      rw [hdd_cache_scan_go, if_neg (by simp [hv0]),
        if_pos ⟨by simpa [List.getD] using h1, by simpa [List.getD] using h2⟩]
      simp
    | succ k2 =>
      have hinv : seg.valid = false := by simpa [List.getD] using hpre 0 (by omega)
      rw [hdd_cache_scan_go, if_pos (by simp [hinv])]
      rw [ih k2 (by simpa using hk)
        (fun j hj => by simpa [List.getD] using hpre (j + 1) (by omega))
        (by simpa [List.getD] using hv) (by simpa [List.getD] using h1)
        (by simpa [List.getD] using h2) (i + 1) i seg.lru]
      congr 1
      omega

theorem hdd_cache_scan_first_hit (segs : List HddCacheSeg) (size addr k : Nat)
    (hk : k < segs.length)
    (hpre : ∀ j, j < k → (segs.getD j default).valid = false)
    (hv : (segs.getD k default).valid = true)
    (h1 : (segs.getD k default).lba_addr ≤ addr)
    (h2 : addr ≤ (segs.getD k default).lba_addr + size) :
    hdd_cache_scan segs size addr = (k, true) := by
  cases segs with
  | nil => simp at hk
  | cons s0 rest =>
    rw [hdd_cache_scan, hdd_cache_scan_go_first_hit size addr _ k hk hpre hv h1 h2 0 0 s0.lru]
    simp

/-- With read-ahead disarmed and an empty write cache, `hdd_timing_read`
    is its post-catch-up core. -/
theorem hdd_timing_read_off (tsc : Nat) (cp : ℚ) (s : HardDisk) (addr len : Nat)
    (hp : ¬ s.speed_preset = 0) (hra : s.cache.ra_ongoing = false)
    (h0 : s.cache.write_pending = 0) :
    hdd_timing_read tsc cp s addr len = hdd_timing_read_core tsc cp s addr len := by
  rw [hdd_timing_read, if_neg hp, hdd_readahead_update_off _ _ _ hra,
    hdd_writecache_update_off _ _ _ h0]

/-- The post-catch-up read core on a miss (empty write cache): charge
    `len` sectors (first discrete, rest continuous), install the window
    at `addr` in the chosen segment, bump every `lru` and zero the
    winner's, and re-arm read-ahead on it. -/
theorem hdd_timing_read_core_miss (tsc : Nat) (cp : ℚ) (s : HardDisk) (addr len i : Nat)
    (h0 : s.cache.write_pending = 0)
    (hscan : hdd_cache_scan s.cache.segments s.cache.segment_size addr = (i, false)) :
    hdd_timing_read_core tsc cp s addr len =
      ((hdd_charge_miss len false s addr).1,
        { (hdd_charge_miss len false s addr).2.1 with cache := { s.cache with
            segments := (((s.cache.segments.set i ({ s.cache.segments.getD i default with lba_addr := addr, valid := true, host_addr := addr, ra_addr := addr + len })).map fun g => { g with lru := g.lru + 1 }).set i ({ ((s.cache.segments.set i ({ s.cache.segments.getD i default with lba_addr := addr, valid := true, host_addr := addr, ra_addr := addr + len })).map fun g => { g with lru := g.lru + 1 }).getD i default with lru := 0 })),
            ra_ongoing := true,
            ra_segment := (s.cache.segments.getD i default).id,
            ra_start_time := (tsc + u32OfRat ((hdd_charge_miss len false s addr).1 * cp / 1000000)) % U64 } }) := by
  simp only [hdd_timing_read_core, hdd_writecache_flush_pending_zero s h0, hscan,
    hdd_charge_miss_ra, hdd_charge_miss_cache, zero_add, Bool.false_eq_true, if_false]

/-- The post-catch-up read core on a hit whose read-ahead cursor already
    covers the request: nothing is charged. -/
theorem hdd_timing_read_core_hit_free (tsc : Nat) (cp : ℚ) (s : HardDisk) (addr len i : Nat)
    (h0 : s.cache.write_pending = 0)
    (hscan : hdd_cache_scan s.cache.segments s.cache.segment_size addr = (i, true))
    (hra : addr + len ≤ (s.cache.segments.getD i default).ra_addr) :
    (hdd_timing_read_core tsc cp s addr len).1 = 0 := by
  have hnolt : ¬ (s.cache.segments[i]?.getD default).ra_addr < addr + len := by
    rw [← List.getD_eq_getElem?_getD]
    omega
  simp [hdd_timing_read_core, hdd_writecache_flush_pending_zero s h0, hscan, hnolt]

/-- A `hdd_timing_read` on a drive whose read-ahead session is armed on
    a post-miss-shaped segment (and whose write cache is empty) is the
    read core acting on the catch-up result: some drive `sd` with the
    same cache except that the tracked segment's cursor advanced to a
    point `ra'` still inside its window. -/
theorem hdd_timing_read_armed (tsc : Nat) (cp : ℚ) (s : HardDisk) (addr len : Nat)
    (hp : ¬ s.speed_preset = 0) (h0 : s.cache.write_pending = 0)
    (hra : s.cache.ra_ongoing = true)
    (hh : (s.cache.segments.getD s.cache.ra_segment default).host_addr
        = (s.cache.segments.getD s.cache.ra_segment default).lba_addr)
    (hle : (s.cache.segments.getD s.cache.ra_segment default).ra_addr
        ≤ (s.cache.segments.getD s.cache.ra_segment default).host_addr + s.cache.segment_size)
    (hsm : (s.cache.segments.getD s.cache.ra_segment default).host_addr + s.cache.segment_size
        < 2147483648) :
    ∃ (ra' : Nat) (sd : HardDisk),
      (s.cache.segments.getD s.cache.ra_segment default).ra_addr ≤ ra' ∧
      ra' ≤ (s.cache.segments.getD s.cache.ra_segment default).host_addr + s.cache.segment_size ∧
      sd.speed_preset = s.speed_preset ∧ sd.cache = s.cache ∧ sd.zones = s.zones ∧
      hdd_timing_read tsc cp s addr len =
        hdd_timing_read_core tsc cp ({ sd with cache := { s.cache with segments := s.cache.segments.set s.cache.ra_segment ({ s.cache.segments.getD s.cache.ra_segment default with ra_addr := ra' }) } }) addr len := by
  refine ⟨(hdd_readahead_loop
      ((s.cache.segments.getD s.cache.ra_segment default).host_addr + s.cache.segment_size
        - (s.cache.segments.getD s.cache.ra_segment default).ra_addr)
      s (s.cache.segments.getD s.cache.ra_segment default).ra_addr
      (((u64sub tsc s.cache.ra_start_time : Nat) : ℚ) / cp * 1000000) 0).2.2,
    (hdd_readahead_loop
      ((s.cache.segments.getD s.cache.ra_segment default).host_addr + s.cache.segment_size
        - (s.cache.segments.getD s.cache.ra_segment default).ra_addr)
      s (s.cache.segments.getD s.cache.ra_segment default).ra_addr
      (((u64sub tsc s.cache.ra_start_time : Nat) : ℚ) / cp * 1000000) 0).2.1,
    hdd_readahead_loop_ra_ge _ _ _ _ _, ?_, hdd_readahead_loop_preset _ _ _ _ _,
    hdd_readahead_loop_cache _ _ _ _ _, hdd_readahead_loop_zones _ _ _ _ _, ?_⟩
  · have h1 := hdd_readahead_loop_ra_le
      ((s.cache.segments.getD s.cache.ra_segment default).host_addr + s.cache.segment_size
        - (s.cache.segments.getD s.cache.ra_segment default).ra_addr)
      s (s.cache.segments.getD s.cache.ra_segment default).ra_addr
      (((u64sub tsc s.cache.ra_start_time : Nat) : ℚ) / cp * 1000000) 0
    omega
  · rw [hdd_timing_read, if_neg hp, hdd_readahead_update_eq_of tsc cp s hra hh hle hsm,
      hdd_writecache_update_off]
    exact h0

theorem segs_getD_mem (l : List HddCacheSeg) (j : Nat) (d : HddCacheSeg)
    (h : j < l.length) : l.getD j d ∈ l := by
  rw [List.getD_eq_getElem?_getD, List.getElem?_eq_getElem h]
  exact List.getElem_mem h

theorem hdd_timing_read_miss_facts (tsc : Nat) (cp : ℚ) (s : HardDisk) (A L : Nat)
    (hp : ¬ s.speed_preset = 0) (hne : s.cache.segments ≠ [])
    (hinv : ∀ g ∈ s.cache.segments, g.valid = false)
    (h0 : s.cache.write_pending = 0) (hra : s.cache.ra_ongoing = false) :
    ∃ S1 : HardDisk,
      (hdd_timing_read tsc cp s A L).2 = S1 ∧
      S1.speed_preset = s.speed_preset ∧
      S1.cache.write_pending = s.cache.write_pending ∧
      S1.cache.ra_ongoing = true ∧
      S1.cache.ra_segment
        = (s.cache.segments.getD (s.cache.segments.length - 1) default).id ∧
      S1.cache.segment_size = s.cache.segment_size ∧
      S1.cache.segments.length = s.cache.segments.length ∧
      S1.cache.segments.getD (s.cache.segments.length - 1) default
        = { s.cache.segments.getD (s.cache.segments.length - 1) default with
            valid := true, lba_addr := A, host_addr := A, ra_addr := A + L, lru := 0 } ∧
      (∀ j, j < s.cache.segments.length - 1 →
        (S1.cache.segments.getD j default).valid
          = (s.cache.segments.getD j default).valid) := by
  have hlen : 0 < s.cache.segments.length := List.length_pos.mpr hne
  have hscan1 := hdd_cache_scan_all_invalid s.cache.segments s.cache.segment_size A hinv hne
  rw [hdd_timing_read_off tsc cp s A L hp hra h0,
    hdd_timing_read_core_miss tsc cp s A L (s.cache.segments.length - 1) h0 hscan1]
  refine ⟨_, rfl, ?_, ?_, ?_, ?_, ?_, ?_, ?_, ?_⟩
  all_goals dsimp only
  case refine_1 => exact hdd_charge_miss_preset L false s A
  case refine_6 => simp
  case refine_7 =>
    have hget1 : ((s.cache.segments.set (s.cache.segments.length - 1) ({ (s.cache.segments.getD (s.cache.segments.length - 1) default) with lba_addr := A, valid := true, host_addr := A, ra_addr := A + L })).map fun g => { g with lru := g.lru + 1 }).getD (s.cache.segments.length - 1) default
        = { ({ (s.cache.segments.getD (s.cache.segments.length - 1) default) with lba_addr := A, valid := true, host_addr := A, ra_addr := A + L }) with lru := (({ (s.cache.segments.getD (s.cache.segments.length - 1) default) with lba_addr := A, valid := true, host_addr := A, ra_addr := A + L }) : HddCacheSeg).lru + 1 } := by
      rw [segs_getD_map _ _ _ _ (by simp; omega), segs_getD_set_self _ _ _ _ (by omega)]
    rw [segs_getD_set_self _ _ _ _ (by simp; omega), hget1]
  case refine_8 =>
    intro j hj
    rw [segs_getD_set_ne _ _ _ _ _ (by omega), segs_getD_map _ _ _ _ (by simp; omega),
      segs_getD_set_ne _ _ _ _ _ (by omega)]

/-- C8: on a configured drive with a freshly initialized read cache (all
    segments invalid, the last segment's id equal to its position), an
    empty write cache and read-ahead idle, a read at address `A` of length
    `L` within the segment size followed by an immediately repeated
    identical read costs 0 microseconds on the second read: the first read
    populates a segment whose window covers `A` and arms read-ahead, and
    the catch-up pass leaves the cursor at or past `A + L`, so the second
    read charges no sector. -/
theorem hdd_read_repeat_free (tsc : Nat) (cp : ℚ) (s : HardDisk) (A L : Nat)
    (hp : ¬ s.speed_preset = 0) (hne : s.cache.segments ≠ [])
    (hinv : ∀ g ∈ s.cache.segments, g.valid = false)
    (hid : (s.cache.segments.getD (s.cache.segments.length - 1) default).id
        = s.cache.segments.length - 1)
    (h0 : s.cache.write_pending = 0) (hra : s.cache.ra_ongoing = false)
    (hL1 : 1 ≤ L) (hLs : L ≤ s.cache.segment_size)
    (hsm : A + s.cache.segment_size < 2147483648) :
    (hdd_timing_read tsc cp (hdd_timing_read tsc cp s A L).2 A L).1 = 0 := by
  have hlen : 0 < s.cache.segments.length := List.length_pos.mpr hne
  obtain ⟨S1, hS1, f1, f2, f3, f4, f5, f6, f7, f8⟩ :=
    hdd_timing_read_miss_facts tsc cp s A L hp hne hinv h0 hra
  rw [hS1]
  rw [hid] at f4
  obtain ⟨ra', sd, hge, hle2, hsdp, hsdc, hsdz, heq⟩ :=
    hdd_timing_read_armed tsc cp S1 A L
      (by rw [f1]; exact hp)
      (by rw [f2]; exact h0)
      f3
      (by rw [f4, f7])
      (by rw [f4, f7, f5]
          show A + L ≤ A + s.cache.segment_size
          omega)
      (by rw [f4, f7, f5]
          exact hsm)
  rw [heq]
  rw [f4, f7] at hge
  refine hdd_timing_read_core_hit_free tsc cp _ A L (s.cache.segments.length - 1)
    (by show S1.cache.write_pending = 0
        rw [f2]; exact h0) ?_ ?_
  · show hdd_cache_scan
        (S1.cache.segments.set S1.cache.ra_segment
          ({ S1.cache.segments.getD S1.cache.ra_segment default with ra_addr := ra' }))
        S1.cache.segment_size A = (s.cache.segments.length - 1, true)
    rw [f4, f7, f5]
    refine hdd_cache_scan_first_hit _ _ _ _ (by simp [f6]; omega) ?_ ?_ ?_ ?_
    · intro j hj
      rw [segs_getD_set_ne _ _ _ _ _ (by omega), f8 j (by omega)]
      exact hinv _ (segs_getD_mem _ _ _ (by omega))
    · rw [segs_getD_set_self _ _ _ _ (by rw [f6]; omega)]
    · rw [segs_getD_set_self _ _ _ _ (by rw [f6]; omega)]
    · rw [segs_getD_set_self _ _ _ _ (by rw [f6]; omega)]
      show A ≤ A + s.cache.segment_size
      omega
  · show A + L ≤
        ((S1.cache.segments.set S1.cache.ra_segment
          ({ S1.cache.segments.getD S1.cache.ra_segment default with ra_addr := ra' })).getD
          (s.cache.segments.length - 1) default).ra_addr
    rw [f4, f7, segs_getD_set_self _ _ _ _ (by rw [f6]; omega)]
    exact hge

theorem hdd_read_repeat_free_witness :
    (hdd_timing_read 0 1 (hdd_timing_read 0 1 sC7 100 4).2 100 4).1 = 0 :=
  hdd_read_repeat_free 0 1 sC7 100 4 (by decide) (List.cons_ne_nil _ _)
    (by decide) (by decide) (by decide) (by decide) (by decide) (by decide) (by decide)

theorem hdd_timing_read_go_facts (tsc : Nat) (cp : ℚ) (s : HardDisk) (A L i : Nat)
    (hp : ¬ s.speed_preset = 0) (h0 : s.cache.write_pending = 0)
    (hra : s.cache.ra_ongoing = false)
    (hscan : hdd_cache_scan s.cache.segments s.cache.segment_size A = (i, false))
    (hi : i < s.cache.segments.length) :
    ∃ S1 : HardDisk,
      (hdd_timing_read tsc cp s A L).2 = S1 ∧
      S1.speed_preset = s.speed_preset ∧
      S1.cache.write_pending = s.cache.write_pending ∧
      S1.cache.ra_ongoing = true ∧
      S1.cache.ra_segment = (s.cache.segments.getD i default).id ∧
      S1.cache.segment_size = s.cache.segment_size ∧
      S1.cache.segments.length = s.cache.segments.length ∧
      S1.cache.segments.getD i default
        = { s.cache.segments.getD i default with
            valid := true, lba_addr := A, host_addr := A, ra_addr := A + L, lru := 0 } ∧
      (∀ j, j < s.cache.segments.length → j ≠ i →
        S1.cache.segments.getD j default
          = { s.cache.segments.getD j default with
              lru := (s.cache.segments.getD j default).lru + 1 }) := by
  rw [hdd_timing_read_off tsc cp s A L hp hra h0,
    hdd_timing_read_core_miss tsc cp s A L i h0 hscan]
  refine ⟨_, rfl, ?_, ?_, ?_, ?_, ?_, ?_, ?_, ?_⟩
  all_goals dsimp only
  case refine_1 => exact hdd_charge_miss_preset L false s A
  case refine_6 => simp
  case refine_7 =>
    have hget1 : ((s.cache.segments.set i ({ s.cache.segments.getD i default with lba_addr := A, valid := true, host_addr := A, ra_addr := A + L })).map fun g => { g with lru := g.lru + 1 }).getD i default
        = { ({ s.cache.segments.getD i default with lba_addr := A, valid := true, host_addr := A, ra_addr := A + L }) with lru := (({ s.cache.segments.getD i default with lba_addr := A, valid := true, host_addr := A, ra_addr := A + L }) : HddCacheSeg).lru + 1 } := by
      rw [segs_getD_map _ _ _ _ (by simpa using hi), segs_getD_set_self _ _ _ _ hi]
    rw [segs_getD_set_self _ _ _ _ (by simpa using hi), hget1]
  case refine_8 =>
    intro j hj hne
    rw [segs_getD_set_ne _ _ _ _ _ hne, segs_getD_map _ _ _ _ (by simpa using hj),
      segs_getD_set_ne _ _ _ _ _ hne]

theorem hdd_timing_read_armed_miss_facts (tsc : Nat) (cp : ℚ) (s : HardDisk) (A L i : Nat)
    (hp : ¬ s.speed_preset = 0) (h0 : s.cache.write_pending = 0)
    (hra : s.cache.ra_ongoing = true)
    (hh : (s.cache.segments.getD s.cache.ra_segment default).host_addr
        = (s.cache.segments.getD s.cache.ra_segment default).lba_addr)
    (hle : (s.cache.segments.getD s.cache.ra_segment default).ra_addr
        ≤ (s.cache.segments.getD s.cache.ra_segment default).host_addr + s.cache.segment_size)
    (hsm : (s.cache.segments.getD s.cache.ra_segment default).host_addr + s.cache.segment_size
        < 2147483648)
    (hscan : ∀ r : Nat, hdd_cache_scan
        (s.cache.segments.set s.cache.ra_segment
          ({ s.cache.segments.getD s.cache.ra_segment default with ra_addr := r }))
        s.cache.segment_size A = (i, false))
    (hi : i < s.cache.segments.length) :
    ∃ S2 : HardDisk,
      (hdd_timing_read tsc cp s A L).2 = S2 ∧
      S2.speed_preset = s.speed_preset ∧
      S2.cache.write_pending = s.cache.write_pending ∧
      S2.cache.ra_ongoing = true ∧
      S2.cache.ra_segment = (s.cache.segments.getD i default).id ∧
      S2.cache.segment_size = s.cache.segment_size ∧
      S2.cache.segments.length = s.cache.segments.length ∧
      S2.cache.segments.getD i default
        = { s.cache.segments.getD i default with
            valid := true, lba_addr := A, host_addr := A, ra_addr := A + L, lru := 0 } ∧
      (∀ j, j < s.cache.segments.length → j ≠ i → j ≠ s.cache.ra_segment →
        S2.cache.segments.getD j default
          = { s.cache.segments.getD j default with
              lru := (s.cache.segments.getD j default).lru + 1 }) ∧
      (¬ s.cache.ra_segment = i → s.cache.ra_segment < s.cache.segments.length →
        ∃ r : Nat,
          S2.cache.segments.getD s.cache.ra_segment default
            = { s.cache.segments.getD s.cache.ra_segment default with
                ra_addr := r,
                lru := (s.cache.segments.getD s.cache.ra_segment default).lru + 1 }) := by
  obtain ⟨ra', sd, hge, hle2, hsdp, hsdc, hsdz, heq⟩ :=
    hdd_timing_read_armed tsc cp s A L hp h0 hra hh hle hsm
  rw [heq, hdd_timing_read_core_miss tsc cp ({ sd with cache := { s.cache with segments := (s.cache.segments.set s.cache.ra_segment ({ (s.cache.segments.getD s.cache.ra_segment default) with ra_addr := ra' })) } }) A L i h0 (hscan ra')]
  have hblen : ((s.cache.segments.set s.cache.ra_segment ({ (s.cache.segments.getD s.cache.ra_segment default) with ra_addr := ra' })) : List HddCacheSeg).length = s.cache.segments.length := by simp
  have hidX : ((s.cache.segments.set s.cache.ra_segment ({ (s.cache.segments.getD s.cache.ra_segment default) with ra_addr := ra' })).getD i default).id = (s.cache.segments.getD i default).id := by
    rcases eq_or_ne i s.cache.ra_segment with hc | hc
    · subst hc
      rw [segs_getD_set_self _ _ _ _ hi]
    · rw [segs_getD_set_ne _ _ _ _ _ hc]
  refine ⟨_, rfl, ?_, ?_, ?_, ?_, ?_, ?_, ?_, ?_, ?_⟩
  all_goals dsimp only
  case refine_1 =>
    rw [hdd_charge_miss_preset]
    exact hsdp
  case refine_4 => exact hidX
  case refine_6 => simp
  case refine_7 =>
    have hget1 : (((s.cache.segments.set s.cache.ra_segment ({ (s.cache.segments.getD s.cache.ra_segment default) with ra_addr := ra' })).set i ({ (s.cache.segments.set s.cache.ra_segment ({ (s.cache.segments.getD s.cache.ra_segment default) with ra_addr := ra' })).getD i default with lba_addr := A, valid := true, host_addr := A, ra_addr := A + L })).map fun g => { g with lru := g.lru + 1 }).getD i default
        = { ({ (s.cache.segments.set s.cache.ra_segment ({ (s.cache.segments.getD s.cache.ra_segment default) with ra_addr := ra' })).getD i default with lba_addr := A, valid := true, host_addr := A, ra_addr := A + L }) with lru := (({ (s.cache.segments.set s.cache.ra_segment ({ (s.cache.segments.getD s.cache.ra_segment default) with ra_addr := ra' })).getD i default with lba_addr := A, valid := true, host_addr := A, ra_addr := A + L }) : HddCacheSeg).lru + 1 } := by
      rw [segs_getD_map _ _ _ _ (by rw [List.length_set, hblen]; exact hi),
        segs_getD_set_self _ _ _ _ (by rw [hblen]; exact hi)]
    rw [segs_getD_set_self _ _ _ _ (by simpa using hi), hget1, hidX]
  case refine_8 =>
    intro j hj hne hnr
    rw [segs_getD_set_ne _ _ _ _ _ hne,
      segs_getD_map _ _ _ _ (by rw [List.length_set, hblen]; exact hj),
      segs_getD_set_ne _ _ _ _ _ hne, segs_getD_set_ne _ _ _ _ _ hnr]
  case refine_9 =>
    intro hne hlt
    refine ⟨ra', ?_⟩
    rw [segs_getD_set_ne _ _ _ _ _ hne,
      segs_getD_map _ _ _ _ (by rw [List.length_set, hblen]; exact hlt),
      segs_getD_set_ne _ _ _ _ _ hne,
      segs_getD_set_self _ _ _ _ hlt]

theorem segs_eq_pair (l : List HddCacheSeg) (h : l.length = 2) :
    l = [l.getD 0 default, l.getD 1 default] := by
  cases l with
  | nil => simp at h
  | cons a t =>
    cases t with
    | nil => simp at h
    | cons b t2 =>
      cases t2 with
      | nil => rfl
      | cons c t3 => simp at h

/-- C7: on a drive whose read cache has exactly two segments, both initially
    invalid with lru 0 and ids 0 and 1, three successive reads at pairwise
    disjoint, mutually non-adjacent addresses land as follows: the first read
    fills segment 1, the second read fills segment 0 (a different segment),
    and the third read evicts and reuses segment 1 -- the least recently used
    one, holding the first read's window -- while segment 0 keeps the second
    read's window. -/
theorem hdd_read_lru_eviction (tsc1 tsc2 tsc3 : Nat) (cp : ℚ) (s : HardDisk)
    (g0 g1 : HddCacheSeg) (A1 A2 A3 L1 L2 L3 : Nat)
    (hsegs : s.cache.segments = [g0, g1])
    (hp : ¬ s.speed_preset = 0)
    (hv0 : g0.valid = false) (hv1 : g1.valid = false)
    (hl0 : g0.lru = 0) (hl1 : g1.lru = 0)
    (hid0 : g0.id = 0) (hid1 : g1.id = 1)
    (h0 : s.cache.write_pending = 0) (hra : s.cache.ra_ongoing = false)
    (hL1 : L1 ≤ s.cache.segment_size) (hL2 : L2 ≤ s.cache.segment_size)
    (hsm1 : A1 + s.cache.segment_size < 2147483648)
    (hsm2 : A2 + s.cache.segment_size < 2147483648)
    (hm2 : ¬ (A1 ≤ A2 ∧ A2 ≤ A1 + s.cache.segment_size))
    (hm3a : ¬ (A2 ≤ A3 ∧ A3 ≤ A2 + s.cache.segment_size))
    (hm3b : ¬ (A1 ≤ A3 ∧ A3 ≤ A1 + s.cache.segment_size)) :
    (hdd_timing_read tsc1 cp s A1 L1).2.cache.ra_segment = 1 ∧
    (((hdd_timing_read tsc1 cp s A1 L1).2.cache.segments.getD 1 default).lba_addr = A1) ∧
    (hdd_timing_read tsc2 cp (hdd_timing_read tsc1 cp s A1 L1).2 A2 L2).2.cache.ra_segment = 0 ∧
    (((hdd_timing_read tsc2 cp (hdd_timing_read tsc1 cp s A1 L1).2 A2 L2).2.cache.segments.getD 0 default).lba_addr = A2) ∧
    (((hdd_timing_read tsc2 cp (hdd_timing_read tsc1 cp s A1 L1).2 A2 L2).2.cache.segments.getD 1 default).lba_addr = A1) ∧
    (hdd_timing_read tsc3 cp (hdd_timing_read tsc2 cp (hdd_timing_read tsc1 cp s A1 L1).2 A2 L2).2 A3 L3).2.cache.ra_segment = 1 ∧
    (((hdd_timing_read tsc3 cp (hdd_timing_read tsc2 cp (hdd_timing_read tsc1 cp s A1 L1).2 A2 L2).2 A3 L3).2.cache.segments.getD 1 default).lba_addr = A3) ∧
    (((hdd_timing_read tsc3 cp (hdd_timing_read tsc2 cp (hdd_timing_read tsc1 cp s A1 L1).2 A2 L2).2 A3 L3).2.cache.segments.getD 0 default).lba_addr = A2) := by
  have hlen2 : s.cache.segments.length = 2 := by rw [hsegs]; rfl
  have hg0 : s.cache.segments.getD 0 default = g0 := by rw [hsegs]; rfl
  have hg1 : s.cache.segments.getD 1 default = g1 := by rw [hsegs]; rfl
  have hscan1 : hdd_cache_scan s.cache.segments s.cache.segment_size A1 = (1, false) := by
    rw [hsegs]
    simp [hdd_cache_scan, hdd_cache_scan_go, hv0, hv1]
  obtain ⟨T1, e0, e1, e2, e3, e4, e5, e6, e7, e8⟩ :=
    hdd_timing_read_go_facts tsc1 cp s A1 L1 1 hp h0 hra hscan1 (by rw [hlen2]; omega)
  have e4' : T1.cache.ra_segment = 1 := by rw [e4, hg1, hid1]
  have e80 : T1.cache.segments.getD 0 default = { g0 with lru := g0.lru + 1 } := by
    have h := e8 0 (by rw [hlen2]; omega) (by omega)
    rw [hg0] at h
    exact h
  have e7' : T1.cache.segments.getD 1 default
      = { g1 with valid := true, lba_addr := A1, host_addr := A1, ra_addr := A1 + L1, lru := 0 } := by
    rw [e7, hg1]
  have hscan2 : ∀ r : Nat, hdd_cache_scan
      (T1.cache.segments.set T1.cache.ra_segment
        ({ T1.cache.segments.getD T1.cache.ra_segment default with ra_addr := r }))
      T1.cache.segment_size A2 = (0, false) := by
    intro r
    rw [e4', e5]
    have epair : T1.cache.segments
        = [T1.cache.segments.getD 0 default, T1.cache.segments.getD 1 default] :=
      segs_eq_pair _ (by rw [e6, hlen2])
    rw [epair]
    simp only [List.getD_cons_succ, List.getD_cons_zero, List.set_cons_succ, List.set_cons_zero]
    rw [e80, e7']
    simp only [hdd_cache_scan, hdd_cache_scan_go, hv0, Bool.not_false, if_true]
    rw [if_neg (by decide), if_neg hm2, if_neg (by omega)]
  obtain ⟨T2, m0, m1, m2, m3, m4, m5, m6, m7, m8, m9⟩ :=
    hdd_timing_read_armed_miss_facts tsc2 cp T1 A2 L2 0
      (by rw [e1]; exact hp)
      (by rw [e2]; exact h0)
      e3
      (by rw [e4', e7'])
      (by rw [e4', e7', e5]
          show A1 + L1 ≤ A1 + s.cache.segment_size
          omega)
      (by rw [e4', e7', e5]
          show A1 + s.cache.segment_size < 2147483648
          exact hsm1)
      hscan2
      (by rw [e6, hlen2]; omega)
  have m4' : T2.cache.ra_segment = 0 := by
    rw [m4, e80]
    show g0.id = 0
    exact hid0
  obtain ⟨r1, m9'⟩ := m9 (by rw [e4']; omega) (by rw [e4', e6, hlen2]; omega)
  rw [e4'] at m9'
  have m7' : T2.cache.segments.getD 0 default
      = { T1.cache.segments.getD 0 default with
          valid := true, lba_addr := A2, host_addr := A2, ra_addr := A2 + L2, lru := 0 } := m7
  have hscan3 : ∀ r : Nat, hdd_cache_scan
      (T2.cache.segments.set T2.cache.ra_segment
        ({ T2.cache.segments.getD T2.cache.ra_segment default with ra_addr := r }))
      T2.cache.segment_size A3 = (1, false) := by
    intro r
    rw [m4', m5, e5]
    have epair2 : T2.cache.segments
        = [T2.cache.segments.getD 0 default, T2.cache.segments.getD 1 default] :=
      segs_eq_pair _ (by rw [m6, e6, hlen2])
    rw [epair2]
    simp only [List.getD_cons_succ, List.getD_cons_zero, List.set_cons_succ, List.set_cons_zero]
    rw [m7', m9', e7']
    simp only [hdd_cache_scan, hdd_cache_scan_go]
    simp [hm3a, hm3b]
  obtain ⟨T3, n0, n1, n2, n3, n4, n5, n6, n7, n8, n9⟩ :=
    hdd_timing_read_armed_miss_facts tsc3 cp T2 A3 L3 1
      (by rw [m1, e1]; exact hp)
      (by rw [m2, e2]; exact h0)
      m3
      (by rw [m4', m7'])
      (by rw [m4', m7', m5, e5]
          show A2 + L2 ≤ A2 + s.cache.segment_size
          omega)
      (by rw [m4', m7', m5, e5]
          show A2 + s.cache.segment_size < 2147483648
          exact hsm2)
      hscan3
      (by rw [m6, e6, hlen2]; omega)
  have n4' : T3.cache.ra_segment = 1 := by
    rw [n4, m9', e7']
    show g1.id = 1
    exact hid1
  obtain ⟨r2, n9'⟩ := n9 (by rw [m4']; omega) (by rw [m4', m6, e6, hlen2]; omega)
  rw [m4'] at n9'
  rw [e0, m0, n0]
  refine ⟨e4', ?_, m4', ?_, ?_, n4', ?_, ?_⟩
  · rw [e7']
  · rw [m7']
  · rw [m9', e7']
  · rw [n7, m9', e7']
  · rw [n9', m7']

theorem hdd_read_lru_eviction_witness :
    (hdd_timing_read 0 1 sC7 100 4).2.cache.ra_segment = 1 ∧
    (((hdd_timing_read 0 1 sC7 100 4).2.cache.segments.getD 1 default).lba_addr = 100) ∧
    (hdd_timing_read 0 1 (hdd_timing_read 0 1 sC7 100 4).2 200 4).2.cache.ra_segment = 0 ∧
    (((hdd_timing_read 0 1 (hdd_timing_read 0 1 sC7 100 4).2 200 4).2.cache.segments.getD 0 default).lba_addr = 200) ∧
    (((hdd_timing_read 0 1 (hdd_timing_read 0 1 sC7 100 4).2 200 4).2.cache.segments.getD 1 default).lba_addr = 100) ∧
    (hdd_timing_read 0 1 (hdd_timing_read 0 1 (hdd_timing_read 0 1 sC7 100 4).2 200 4).2 300 4).2.cache.ra_segment = 1 ∧
    (((hdd_timing_read 0 1 (hdd_timing_read 0 1 (hdd_timing_read 0 1 sC7 100 4).2 200 4).2 300 4).2.cache.segments.getD 1 default).lba_addr = 300) ∧
    (((hdd_timing_read 0 1 (hdd_timing_read 0 1 (hdd_timing_read 0 1 sC7 100 4).2 200 4).2 300 4).2.cache.segments.getD 0 default).lba_addr = 200) :=
  hdd_read_lru_eviction 0 0 0 1 sC7 (segInv 0) (segInv 1) 100 200 300 4 4 4
    rfl (by decide) rfl rfl rfl rfl rfl rfl rfl rfl
    (by decide) (by decide) (by decide) (by decide) (by decide) (by decide) (by decide)

theorem hdd_zone_percent_nonneg (i zones : Nat) : 0 ≤ hdd_zone_percent i zones := by
  rw [hdd_zone_percent]
  positivity

theorem hdd_zone_percent_le (i zones : Nat) (h : i < zones) :
    hdd_zone_percent i zones ≤ 100 := by
  rw [hdd_zone_percent]
  have hz : (0 : ℚ) < (zones : ℚ) := by
    exact_mod_cast Nat.pos_of_ne_zero (by omega)
  rw [div_le_iff₀ hz]
  have : ((i * 100 : Nat) : ℚ) = (i : ℚ) * 100 := by push_cast; ring
  rw [this]
  have hi : (i : ℚ) ≤ (zones : ℚ) := by exact_mod_cast Nat.le_of_lt h
  nlinarith

theorem hdd_spt_percent_pos (i zones : Nat) (h : i < zones) :
    0 < hdd_spt_percent i zones := by
  have h0 := hdd_zone_percent_nonneg i zones
  have h1 := hdd_zone_percent_le i zones h
  rw [hdd_spt_percent]
  set z := hdd_zone_percent i zones with hz
  nlinarith [sq_nonneg z, mul_nonneg h0 h0]

theorem hdd_preset_zone_spt_pos_mid (p : HddPreset) (i ds t cpz : Nat)
    (hsp : 1 ≤ p.avg_spt) (h : i + 1 < p.zones) :
    1 ≤ hdd_preset_zone_spt p i ds t cpz := by
  rw [hdd_preset_zone_spt, if_pos h]
  have hq := hdd_spt_percent_pos i p.zones (by omega)
  have hs : (0 : ℚ) < (p.avg_spt : ℚ) := by exact_mod_cast hsp
  exact natCeilQ_pos _ (by positivity)

theorem hdd_build_go_snoc (p : HddPreset) (ds cpz : Nat) :
    ∀ (r i t : Nat),
    hdd_build_go p ds cpz i (r + 1) t
      = ((hdd_build_go p ds cpz i r t).1
            ++ [(cpz, hdd_preset_zone_spt p (i + r) ds (hdd_build_go p ds cpz i r t).2 cpz)],
         (hdd_build_go p ds cpz i r t).2
            + hdd_preset_zone_spt p (i + r) ds (hdd_build_go p ds cpz i r t).2 cpz
              * cpz * p.heads) := by
  intro r
  induction r with
  | zero =>
    intro i t
    simp [hdd_build_go]
  | succ k ih =>
    intro i t
    have unfold1 : ∀ (r i t : Nat), hdd_build_go p ds cpz i (r + 1) t
        = ((cpz, hdd_preset_zone_spt p i ds t cpz)
              :: (hdd_build_go p ds cpz (i + 1) r
                  (t + hdd_preset_zone_spt p i ds t cpz * cpz * p.heads)).1,
            (hdd_build_go p ds cpz (i + 1) r
              (t + hdd_preset_zone_spt p i ds t cpz * cpz * p.heads)).2) :=
      fun r i t => rfl
    rw [unfold1 (k + 1) i t, unfold1 k i t, ih (i + 1)]
    have hidx : i + 1 + k = i + (k + 1) := by omega
    rw [hidx]
    simp

theorem hdd_build_go_len (p : HddPreset) (ds cpz : Nat) :
    ∀ (r i t : Nat), (hdd_build_go p ds cpz i r t).1.length = r := by
  intro r
  induction r with
  | zero => intro i t; rfl
  | succ k ih =>
    intro i t
    simp only [hdd_build_go, List.length_cons]
    rw [ih]

theorem hdd_build_go_total (p : HddPreset) (ds cpz : Nat) :
    ∀ (r i t : Nat),
    (hdd_build_go p ds cpz i r t).2 = t + zoneSectors p.heads (hdd_build_go p ds cpz i r t).1 := by
  intro r
  induction r with
  | zero => intro i t; simp [hdd_build_go, zoneSectors]
  | succ k ih =>
    intro i t
    simp only [hdd_build_go, zoneSectors]
    rw [ih]
    ring

theorem hdd_build_go_mid (p : HddPreset) (ds cpz : Nat) (hsp : 1 ≤ p.avg_spt) :
    ∀ (r i t : Nat), i + r < p.zones →
    ∀ m ∈ (hdd_build_go p ds cpz i r t).1, m.1 = cpz ∧ 1 ≤ m.2 := by
  intro r
  induction r with
  | zero => intro i t _ m hm; simp [hdd_build_go] at hm
  | succ k ih =>
    intro i t hir m hm
    simp only [hdd_build_go, List.mem_cons] at hm
    rcases hm with hm | hm
    · subst hm
      exact ⟨rfl, hdd_preset_zone_spt_pos_mid p i ds t cpz hsp (by omega)⟩
    · exact ih (i + 1) _ (by omega) m hm

theorem hdd_zones_init_go_spec (rev : ℚ) (heads : Nat) (hh : 1 ≤ heads) :
    ∀ (ms : List (Nat × Nat)) (lba track : Nat),
    (∀ m ∈ ms, 1 ≤ m.1 ∧ 1 ≤ m.2) →
    lba + zoneSectors heads ms < U32 →
    (hdd_zones_init_go rev heads lba track ms).length = ms.length ∧
    (ms ≠ [] → ((hdd_zones_init_go rev heads lba track ms).getD 0 default).start_sector = lba) ∧
    (∀ j, j + 1 < ms.length →
      ((hdd_zones_init_go rev heads lba track ms).getD j default).end_sector + 1
        = ((hdd_zones_init_go rev heads lba track ms).getD (j + 1) default).start_sector) ∧
    (ms ≠ [] →
      ((hdd_zones_init_go rev heads lba track ms).getD (ms.length - 1) default).end_sector + 1
        = lba + zoneSectors heads ms) := by
  intro ms
  induction ms with
  | nil =>
    intro lba track _ _
    refine ⟨rfl, fun h => absurd rfl h, fun j hj => by simp at hj, fun h => absurd rfl h⟩
  | cons m rest ih =>
    intro lba track hpos hbound
    obtain ⟨c, sp⟩ := m
    have hm0 := hpos (c, sp) (List.mem_cons_self _ _)
    have hzs : zoneSectors heads ((c, sp) :: rest) = c * heads * sp + zoneSectors heads rest := rfl
    have hcs : 1 ≤ c * heads * sp := by
      have := hm0.1
      have := hm0.2
      exact Nat.one_le_iff_ne_zero.mpr (by positivity)
    have hbound2 : lba + c * heads * sp + zoneSectors heads rest < U32 := by
      rw [hzs] at hbound
      omega
    obtain ⟨ihlen, ihstart, ihadj, ihlast⟩ :=
      ih (lba + c * heads * sp) (track + u32sub (c * heads) 1)
        (fun m hm => hpos m (List.mem_cons_of_mem _ hm)) (by omega)
    have hu32 : u32sub (lba + c * heads * sp) 1 = lba + c * heads * sp - 1 :=
      u32sub_eq _ 1 (by omega) (by omega)
    have hunf : hdd_zones_init_go rev heads lba track ((c, sp) :: rest)
        = { cylinders := c, sectors_per_track := sp, start_sector := lba, start_track := track,
            sector_time_usec := rev / (sp : ℚ),
            end_sector := u32sub (lba + c * heads * sp) 1 } ::
          hdd_zones_init_go rev heads (lba + c * heads * sp) (track + u32sub (c * heads) 1) rest :=
      rfl
    rw [hunf]
    refine ⟨by simp [ihlen], fun _ => rfl, ?_, ?_⟩
    · intro j hj
      cases j with
      | zero =>
        simp only [List.getD_cons_zero, List.getD_cons_succ]
        rw [hu32]
        have hrest : rest ≠ [] := by
          intro h
          rw [h] at hj
          simp at hj
        rw [ihstart hrest]
        omega
      | succ j' =>
        simp only [List.getD_cons_succ]
        exact ihadj j' (by simpa using hj)
    · intro _
      by_cases hrest : rest = []
      · subst hrest
        simp only [List.length_cons, List.length_nil, Nat.zero_add, Nat.sub_self,
          List.getD_cons_zero]
        rw [hu32, hzs]
        simp [zoneSectors]
        omega
      · have hlp : 0 < rest.length := List.length_pos.mpr hrest
        have hidx : ((c, sp) :: rest).length - 1 = (rest.length - 1) + 1 := by
          simp only [List.length_cons]
          omega
        rw [hidx]
        simp only [List.getD_cons_succ]
        rw [ihlast hrest, hzs]
        omega

theorem hdd_preset_apply_zones (p : HddPreset) (s : HardDisk) (hp0 : ¬ s.speed_preset = 0) :
    (hdd_preset_apply p s).zones
      = hdd_zones_init (60 / (p.rpm : ℚ) * 1000000) p.heads (presetBuild p s) := by
  simp only [hdd_preset_apply]
  rw [if_neg hp0]

theorem hdd_preset_zone_table_spec (p : HddPreset) (s : HardDisk)
    (hp0 : ¬ s.speed_preset = 0)
    (hz : 1 ≤ p.zones)
    (hh : 1 ≤ p.heads)
    (hsp : 1 ≤ p.avg_spt)
    (hcpz : 1 ≤ presetCpz p s)
    (hbl : presetTotalBL p s < presetDiskSectors s)
    (hds32 : presetDiskSectors s < U32)
    (hU : presetTotal p s < U32) :
    ((hdd_preset_apply p s).zones.length = p.zones) ∧
    (((hdd_preset_apply p s).zones.getD 0 default).start_sector = 0) ∧
    (∀ j, j + 1 < p.zones →
      ((hdd_preset_apply p s).zones.getD j default).end_sector + 1
        = ((hdd_preset_apply p s).zones.getD (j + 1) default).start_sector) ∧
    (((hdd_preset_apply p s).zones.getD (p.zones - 1) default).end_sector + 1
      = presetTotal p s) ∧
    presetDiskSectors s ≤ presetTotal p s := by
  have hzz : p.zones - 1 + 1 = p.zones := by omega
  have hMlen : (presetBuild p s).length = p.zones := hdd_build_go_len p _ _ p.zones 0 0
  have hMne : presetBuild p s ≠ [] := by
    intro h
    rw [h] at hMlen
    simp at hMlen
    omega
  have hsnoc := hdd_build_go_snoc p (presetDiskSectors s) (presetCpz p s) (p.zones - 1) 0 0
  rw [hzz] at hsnoc
  have hsptL : 1 ≤ hdd_preset_zone_spt p (0 + (p.zones - 1)) (presetDiskSectors s)
      (presetTotalBL p s) (presetCpz p s) := by
    rw [hdd_preset_zone_spt, if_neg (by omega)]
    refine natCeilQ_pos _ ?_
    rw [u32sub_eq _ _ (by omega) hds32]
    have h1 : (0 : ℚ) < ((presetDiskSectors s - presetTotalBL p s : Nat) : ℚ) := by
      exact_mod_cast Nat.sub_pos_of_lt hbl
    have h2 : (0 : ℚ) < ((presetCpz p s * p.heads : Nat) : ℚ) := by
      have : 1 ≤ presetCpz p s * p.heads := Nat.one_le_iff_ne_zero.mpr (by positivity)
      exact_mod_cast this
    positivity
  have hMpos : ∀ m ∈ presetBuild p s, 1 ≤ m.1 ∧ 1 ≤ m.2 := by
    intro m hm
    rw [presetBuild, hsnoc] at hm
    rcases List.mem_append.mp hm with hm | hm
    · refine ⟨?_, (hdd_build_go_mid p _ _ hsp (p.zones - 1) 0 0 (by omega) m hm).2⟩
      rw [(hdd_build_go_mid p _ _ hsp (p.zones - 1) 0 0 (by omega) m hm).1]
      exact hcpz
    · rcases List.mem_singleton.mp hm with rfl
      exact ⟨hcpz, hsptL⟩
  have htotZ : presetTotal p s = zoneSectors p.heads (presetBuild p s) := by
    have := hdd_build_go_total p (presetDiskSectors s) (presetCpz p s) p.zones 0 0
    simpa [presetTotal, presetBuild] using this
  have hdsle : presetDiskSectors s ≤ presetTotal p s := by
    have htot2 : presetTotal p s
        = presetTotalBL p s
          + hdd_preset_zone_spt p (0 + (p.zones - 1)) (presetDiskSectors s)
              (presetTotalBL p s) (presetCpz p s) * presetCpz p s * p.heads := by
      simp only [presetTotal, presetTotalBL]
      rw [hsnoc]
    rw [htot2]
    have hlast : hdd_preset_zone_spt p (0 + (p.zones - 1)) (presetDiskSectors s)
        (presetTotalBL p s) (presetCpz p s)
        = natCeilQ (((presetDiskSectors s - presetTotalBL p s : Nat) : ℚ)
            / ((presetCpz p s * p.heads : Nat) : ℚ)) := by
      rw [hdd_preset_zone_spt, if_neg (by omega), u32sub_eq _ _ (by omega) hds32]
    rw [hlast]
    have hb0 : presetCpz p s * p.heads ≠ 0 := by positivity
    have := le_natCeilQ_mul (presetDiskSectors s - presetTotalBL p s) (presetCpz p s * p.heads) hb0
    have hassoc : natCeilQ (((presetDiskSectors s - presetTotalBL p s : Nat) : ℚ)
            / ((presetCpz p s * p.heads : Nat) : ℚ)) * presetCpz p s * p.heads
        = natCeilQ (((presetDiskSectors s - presetTotalBL p s : Nat) : ℚ)
            / ((presetCpz p s * p.heads : Nat) : ℚ)) * (presetCpz p s * p.heads) := by
      ring
    rw [hassoc]
    omega
  obtain ⟨hlen, hstart, hadj, hlast⟩ :=
    hdd_zones_init_go_spec (60 / (p.rpm : ℚ) * 1000000) p.heads hh (presetBuild p s) 0 0
      hMpos (by rw [← htotZ]; omega)
  rw [hdd_preset_apply_zones p s hp0]
  rw [hdd_zones_init]
  refine ⟨by rw [hlen, hMlen], hstart hMne, ?_, ?_, hdsle⟩
  · intro j hj
    exact hadj j (by rw [hMlen]; exact hj)
  · have := hlast hMne
    rw [hMlen] at this
    rw [this, ← htotZ]
    omega

theorem presetDiskSectors_sGeo : presetDiskSectors sGeo = 20808 := by
  norm_num [presetDiskSectors, sGeo, sBase]

theorem presetCylinders_sGeo : presetCylinders pGen1989 sGeo = 298 := by
  simp only [presetCylinders, presetDiskSectors_sGeo]
  have h1 : natCeilQ (((20808 : Nat) : ℚ) / ((pGen1989.heads : Nat) : ℚ)) = 10404 := by
    refine natCeilQ_eq_of _ _ ?_ ?_ <;> norm_num [pGen1989]
  rw [h1]
  refine natCeilQ_eq_of _ _ ?_ ?_ <;> norm_num [pGen1989]

theorem presetCpz_sGeo : presetCpz pGen1989 sGeo = 298 := by
  simp only [presetCpz, presetCylinders_sGeo]
  norm_num [pGen1989]

theorem presetTotal_sGeo : presetTotal pGen1989 sGeo = 20860 := by
  simp only [presetTotal, presetDiskSectors_sGeo, presetCpz_sGeo]
  show (hdd_build_go pGen1989 20808 298 0 (0 + 1) 0).2 = 20860
  rw [hdd_build_go_snoc pGen1989 20808 298 0 0 0]
  have hspt : hdd_preset_zone_spt pGen1989 (0 + 0) 20808 (hdd_build_go pGen1989 20808 298 0 0 0).2 298 = 35 := by
    rw [hdd_preset_zone_spt, if_neg (by norm_num [pGen1989])]
    show natCeilQ (((u32sub 20808 0 : Nat) : ℚ) / ((298 * pGen1989.heads : Nat) : ℚ)) = 35
    rw [u32sub_eq 20808 0 (by omega) (by norm_num [U32])]
    refine natCeilQ_eq_of _ _ ?_ ?_ <;> norm_num [pGen1989]
  have hb0 : (hdd_build_go pGen1989 20808 298 0 0 0).2 = 0 := rfl
  rw [hspt, hb0]
  norm_num [pGen1989]

theorem presetTotalBL_sGeo : presetTotalBL pGen1989 sGeo = 0 := rfl

/-- C1 counterexample: applying the `[Generic] 1989 (3500 RPM)` preset to a
    306/4/17 geometry (20808 logical sectors) produces a zone table whose
    last `end_sector` is 20859, not `total logical sectors - 1 = 20807`:
    the last zone's ceiling-rounded sectors-per-track overshoots the drive's
    logical capacity, so the cumulative zone sector count is not exactly
    the logical sector count. -/
theorem hdd_preset_zone_exact_cover_counterexample :
    presetDiskSectors sGeo = 20808 ∧
    ((hdd_preset_apply pGen1989 sGeo).zones.getD 0 default).end_sector = 20859 ∧
    ¬ ((hdd_preset_apply pGen1989 sGeo).zones.getD 0 default).end_sector
        = presetDiskSectors sGeo - 1 := by
  obtain ⟨hlen, hstart, hadj, hlast, hle⟩ :=
    hdd_preset_zone_table_spec pGen1989 sGeo (by decide) (by decide) (by decide) (by decide)
      (by rw [presetCpz_sGeo]; omega)
      (by rw [presetTotalBL_sGeo, presetDiskSectors_sGeo]; omega)
      (by rw [presetDiskSectors_sGeo]; decide)
      (by rw [presetTotal_sGeo]; decide)
  have hlast0 : ((hdd_preset_apply pGen1989 sGeo).zones.getD 0 default).end_sector + 1
      = presetTotal pGen1989 sGeo := hlast
  rw [presetTotal_sGeo] at hlast0
  refine ⟨presetDiskSectors_sGeo, by omega, ?_⟩
  rw [presetDiskSectors_sGeo]
  omega

theorem presetDiskSectors_sGeoW : presetDiskSectors sGeoW = 1260 := by
  norm_num [presetDiskSectors, sGeoW, sBase]

theorem presetCylinders_sGeoW : presetCylinders pC2233A sGeoW = 10 := by
  simp only [presetCylinders, presetDiskSectors_sGeoW]
  have h1 : natCeilQ (((1260 : Nat) : ℚ) / ((pC2233A.heads : Nat) : ℚ)) = 1260 := by
    refine natCeilQ_eq_of _ _ ?_ ?_ <;> norm_num [pC2233A]
  rw [h1]
  refine natCeilQ_eq_of _ _ ?_ ?_ <;> norm_num [pC2233A]

theorem presetCpz_sGeoW : presetCpz pC2233A sGeoW = 5 := by
  simp only [presetCpz, presetCylinders_sGeoW]
  norm_num [pC2233A]

theorem hdd_build_one_sGeoW : (hdd_build_go pC2233A 1260 5 0 1 0).2 = 750 := by
  show (hdd_build_go pC2233A 1260 5 0 (0 + 1) 0).2 = 750
  rw [hdd_build_go_snoc pC2233A 1260 5 0 0 0]
  have hspt : hdd_preset_zone_spt pC2233A (0 + 0) 1260 (hdd_build_go pC2233A 1260 5 0 0 0).2 5 = 150 := by
    rw [hdd_preset_zone_spt, if_pos (by norm_num [pC2233A])]
    refine natCeilQ_eq_of _ _ ?_ ?_ <;>
      norm_num [pC2233A, hdd_spt_percent, hdd_zone_percent]
  have hb0 : (hdd_build_go pC2233A 1260 5 0 0 0).2 = 0 := rfl
  rw [hspt, hb0]
  norm_num [pC2233A]

theorem presetTotalBL_sGeoW : presetTotalBL pC2233A sGeoW = 750 := by
  simp only [presetTotalBL, presetDiskSectors_sGeoW, presetCpz_sGeoW]
  exact hdd_build_one_sGeoW

theorem presetTotal_sGeoW : presetTotal pC2233A sGeoW = 1260 := by
  simp only [presetTotal, presetDiskSectors_sGeoW, presetCpz_sGeoW]
  show (hdd_build_go pC2233A 1260 5 0 (1 + 1) 0).2 = 1260
  rw [hdd_build_go_snoc pC2233A 1260 5 1 0 0, hdd_build_one_sGeoW]
  have hspt : hdd_preset_zone_spt pC2233A (0 + 1) 1260 750 5 = 102 := by
    rw [hdd_preset_zone_spt, if_neg (by norm_num [pC2233A])]
    show natCeilQ (((u32sub 1260 750 : Nat) : ℚ) / ((5 * pC2233A.heads : Nat) : ℚ)) = 102
    rw [u32sub_eq 1260 750 (by omega) (by norm_num [U32])]
    refine natCeilQ_eq_of _ _ ?_ ?_ <;> norm_num [pC2233A]
  rw [hspt]
  norm_num [pC2233A]

/-- C1 (amended): for every preset with at least one zone, at least one head
    and a positive average sectors-per-track, and every geometry with a
    configured speed preset, at least one cylinder per zone, a running total
    before the last zone strictly below the logical sector count, and totals
    below 2^32: after preset application the zone table has exactly
    `preset.zones` zones, zone 0 starts at sector 0, adjacent zones tile with
    no gaps or overlaps (`end_sector + 1 = next start_sector`), and the last
    zone's `end_sector + 1` equals the build loop's cumulative sector total,
    which is at least -- but not necessarily equal to -- the drive's logical
    sector count `tracks * hpc * spt`. -/
theorem hdd_preset_zone_table (p : HddPreset) (s : HardDisk)
    (hp0 : ¬ s.speed_preset = 0)
    (hz : 1 ≤ p.zones)
    (hh : 1 ≤ p.heads)
    (hsp : 1 ≤ p.avg_spt)
    (hcpz : 1 ≤ presetCpz p s)
    (hbl : presetTotalBL p s < presetDiskSectors s)
    (hds32 : presetDiskSectors s < U32)
    (hU : presetTotal p s < U32) :
    ((hdd_preset_apply p s).zones.length = p.zones) ∧
    (((hdd_preset_apply p s).zones.getD 0 default).start_sector = 0) ∧
    (∀ j, j + 1 < p.zones →
      ((hdd_preset_apply p s).zones.getD j default).end_sector + 1
        = ((hdd_preset_apply p s).zones.getD (j + 1) default).start_sector) ∧
    (((hdd_preset_apply p s).zones.getD (p.zones - 1) default).end_sector + 1
      = presetTotal p s) ∧
    presetDiskSectors s ≤ presetTotal p s :=
  hdd_preset_zone_table_spec p s hp0 hz hh hsp hcpz hbl hds32 hU

theorem hdd_preset_zone_table_witness :
    (¬ sGeoW.speed_preset = 0) ∧
    (1 ≤ presetCpz pC2233A sGeoW) ∧
    (presetTotalBL pC2233A sGeoW < presetDiskSectors sGeoW) ∧
    ((hdd_preset_apply pC2233A sGeoW).zones.length = 2) ∧
    (((hdd_preset_apply pC2233A sGeoW).zones.getD 0 default).start_sector = 0) ∧
    (((hdd_preset_apply pC2233A sGeoW).zones.getD 0 default).end_sector + 1
      = ((hdd_preset_apply pC2233A sGeoW).zones.getD 1 default).start_sector) ∧
    (((hdd_preset_apply pC2233A sGeoW).zones.getD 1 default).end_sector + 1
      = presetTotal pC2233A sGeoW) ∧
    presetDiskSectors sGeoW ≤ presetTotal pC2233A sGeoW := by
  have hcpzW : 1 ≤ presetCpz pC2233A sGeoW := by rw [presetCpz_sGeoW]; omega
  have hblW : presetTotalBL pC2233A sGeoW < presetDiskSectors sGeoW := by
    rw [presetTotalBL_sGeoW, presetDiskSectors_sGeoW]
    omega
  obtain ⟨hlen, hstart, hadj, hlast, hle⟩ :=
    hdd_preset_zone_table pC2233A sGeoW (by decide) (by decide) (by decide) (by decide)
      hcpzW hblW
      (by rw [presetDiskSectors_sGeoW]; decide)
      (by rw [presetTotal_sGeoW]; decide)
  exact ⟨by decide, hcpzW, hblW, hlen, hstart, hadj 0 (by decide), hlast, hle⟩
